import Mathlib

/-!
Verification development for the Heat Relief Network data pipeline
(`run_pipeline.py`, `update_arcgis.py`).

The pipeline is a pandas batch job.  We embed it shallowly:

* A cell of a DataFrame is a `Val`: missing (`NaN`), an integer, a string,
  or a datetime (`date`, an ordinal that orders like the calendar).  The
  CSVs read here produce integer, string and missing cells; float cells do
  not occur in the modelled fragment.
* A DataFrame is a `Frame`: a list of column names plus rows of
  association lists from column name to `Val`.  `Series.get(k, d)`
  returns `d` when `k` is not a column, and the cell (missing cells are
  `NaN`) when it is.
* Stateful row mutation (`df.at[idx, col] = v`) becomes functional record
  update on `SiteRecord`.
* `datetime.now()` becomes explicit parameters (`nowD` for the date used
  as a default `update_date`, `now`/`nowStr` for the ISO timestamp written
  into `last_updated`).
* Fallible whole-column casts (`astype(int)`) become `Except`: pandas
  raises on the first unparseable value and `clean_data` produces nothing,
  which is what the `Except` error case models (the cast is performed
  row-wise here; pandas performs it column-wise, but the batch-level
  outcome — an error versus the full output — is identical).

String primitives (`split`, `replace`, `lower`, `strip`) are implemented
over `List Char` with explicit fuel so that every definition is a
computable structural recursion the kernel can evaluate.
-/

/-- A pandas cell value: `NaN`, an integer, a string, or a datetime
(the `date` payload is an ordinal `y*10000 + m*100 + d`, which orders the
same way as the calendar for valid dates). -/
inductive Val where
  | na : Val
  | int (n : Int) : Val
  | str (s : String) : Val
  | date (n : Nat) : Val
deriving DecidableEq, Repr

/-- Python truthiness of a cell.  `bool(float("nan"))` is `True`, which is
why a missing checkbox cell counts as truthy in `clean_data`. -/
def Val.truthy : Val → Bool
  | .na => true
  | .int n => n != 0
  | .str s => s != ""
  | .date _ => true

/-- `pd.notna` for a cell. -/
def Val.notna : Val → Bool
  | .na => false
  | _ => true

/-- The Python `value == 1` test (ints only; strings never equal `1`). -/
def Val.eqOne : Val → Bool
  | .int n => n == 1
  | _ => false

/-- The Python `value == 2` test used for holiday closure codes. -/
def Val.eqTwo : Val → Bool
  | .int n => n == 2
  | _ => false

/-- `checkbox_value == 1 or checkbox_value == '1'`. -/
def Val.isChecked : Val → Bool
  | .int n => n == 1
  | .str s => s == "1"
  | _ => false

/-- ASCII lower-casing of one character (`str.lower`; the survey labels
are ASCII). -/
def lowerChar (c : Char) : Char :=
  if 'A' ≤ c && c ≤ 'Z' then Char.ofNat (c.toNat + 32) else c

/-- `str.lower` over a string (ASCII). -/
def strLower (s : String) : String :=
  String.mk (s.toList.map lowerChar)

/-- Whitespace characters recognised by `str.strip`. -/
def isWs (c : Char) : Bool :=
  c == ' ' || c == '\t' || c == '\n' || c == '\r'

/-- `str.strip`. -/
def strStrip (s : String) : String :=
  String.mk (((s.toList.dropWhile isWs).reverse.dropWhile isWs).reverse)

/-- Fuel-driven worker for `str.split(sep)` (`sep` nonempty). -/
def splitAux (sep : List Char) : Nat → List Char → List Char → List (List Char)
  | 0, acc, _ => [acc.reverse]
  | fuel + 1, acc, s =>
    match s with
    | [] => [acc.reverse]
    | c :: rest =>
      if sep.isPrefixOf (c :: rest) then
        acc.reverse :: splitAux sep fuel [] (List.drop sep.length (c :: rest))
      else
        splitAux sep fuel (c :: acc) rest

/-- Python `s.split(sep)` for a nonempty separator. -/
def strSplit (sep s : String) : List String :=
  (splitAux sep.toList (s.length + 1) [] s.toList).map String.mk

/-- Fuel-driven worker for `str.split(sep, 1)`: split at the first
occurrence, or `none` when the separator does not occur. -/
def splitFirstAux (sep : List Char) : Nat → List Char → List Char →
    Option (List Char × List Char)
  | 0, _, _ => none
  | fuel + 1, acc, s =>
    match s with
    | [] => none
    | c :: rest =>
      if sep.isPrefixOf (c :: rest) then
        some (acc.reverse, List.drop sep.length (c :: rest))
      else
        splitFirstAux sep fuel (c :: acc) rest

/-- Python `s.split(sep, 1)` (as the pair of pieces), or `none` when the
separator does not occur in `s`. -/
def strSplitFirst (sep s : String) : Option (String × String) :=
  (splitFirstAux sep.toList (s.length + 1) [] s.toList).map
    fun p => (String.mk p.1, String.mk p.2)

/-- Fuel-driven worker for `str.replace(pat, repl)` (`pat` nonempty). -/
def replaceAux (pat repl : List Char) : Nat → List Char → List Char → List Char
  | 0, acc, s => acc.reverse ++ s
  | fuel + 1, acc, s =>
    match s with
    | [] => acc.reverse
    | c :: rest =>
      if pat.isPrefixOf (c :: rest) then
        replaceAux pat repl fuel (repl.reverse ++ acc) (List.drop pat.length (c :: rest))
      else
        replaceAux pat repl fuel (c :: acc) rest

/-- Python `s.replace(pat, repl)` for a nonempty pattern. -/
def strReplace (pat repl s : String) : String :=
  String.mk (replaceAux pat.toList repl.toList (s.length + 1) [] s.toList)

/-- Parse a decimal digit list to a `Nat` (`none` if empty or non-digit). -/
def parseDigits : List Char → Option Nat
  | [] => none
  | cs =>
    if cs.all Char.isDigit then
      some (cs.foldl (fun a c => a * 10 + (c.toNat - '0'.toNat)) 0)
    else none

/-- Parse a string as a Python `int(...)` (optional sign, decimal digits);
used to model `astype(int)` on string cells. -/
def parseInt (s : String) : Option Int :=
  match s.toList with
  | '-' :: rest => (parseDigits rest).map fun n => -(n : Int)
  | cs => (parseDigits cs).map fun n => (n : Int)

/-- `astype(int)` on one cell: an integer cell passes through, a string
cell is parsed, a missing cell (or a datetime) raises — modelled as the
`Except` error case. -/
def Val.toIntE : Val → Except String Int
  | .int n => .ok n
  | .str s =>
    match parseInt s with
    | some n => .ok n
    | none => .error ("invalid literal for int: " ++ s)
  | .na => .error "cannot convert NaN to int"
  | .date _ => .error "cannot convert datetime to int"

/-- `str(value)` of a cell as Python renders it (`str(nan) = 'nan'`). -/
def strVal : Val → String
  | .na => "nan"
  | .int n => toString n
  | .str s => s
  | .date n => "timestamp-" ++ toString n

/-- Left-pad with zeros to width `w` (`str.zfill`), keeping a leading
sign in place. -/
def zfill (w : Nat) (s : String) : String :=
  if s.length ≥ w then s
  else
    match s.toList with
    | '-' :: rest => String.mk ('-' :: List.replicate (w - s.length) '0' ++ rest)
    | cs => String.mk (List.replicate (w - s.length) '0' ++ cs)

/-- Two-digit zero-padded rendering of a small `Nat`. -/
def pad2 (n : Nat) : String :=
  if n < 10 then "0" ++ toString n else toString n

/-- Parse an ISO `YYYY-MM-DD` date string to the `y*10000 + m*100 + d`
ordinal.  `pd.to_datetime` accepts more formats and raises on garbage;
the pipeline's closure and update dates are ISO strings, which is the
fragment modelled here (non-ISO strings become `NaT`/missing). -/
def parseIsoDate (s : String) : Option Nat :=
  match strSplit "-" s with
  | [ys, ms, ds] =>
    if ys.length == 4 && ms.length == 2 && ds.length == 2 then
      match parseDigits ys.toList, parseDigits ms.toList, parseDigits ds.toList with
      | some y, some m, some d =>
        if 1 ≤ m && m ≤ 12 && 1 ≤ d && d ≤ 31 then some (y * 10000 + m * 100 + d)
        else none
      | _, _, _ => none
    else none
  | _ => none

/-- `pd.to_datetime` on one cell (`NaN` ↦ `NaT`, modelled as `na`). -/
def parseDateVal : Val → Val
  | .na => .na
  | .date n => .date n
  | .str s =>
    match parseIsoDate s with
    | some n => .date n
    | none => .na
  | .int _ => .na

/-- Sakamoto's day-of-week formula, `0 = Sunday`. -/
def sakamoto (y m d : Nat) : Nat :=
  let t := [0, 3, 2, 5, 0, 3, 5, 1, 4, 6, 2, 4]
  let y := if m < 3 then y - 1 else y
  (y + y / 4 - y / 100 + y / 400 + t.getD (m - 1) 0 + d) % 7

/-- `datetime.weekday()`: `0 = Monday`. -/
def pyWeekday (y m d : Nat) : Nat :=
  (sakamoto y m d + 6) % 7

/-- The four holiday dates computed by `calculate_holidays` (a Python
dict there; a record here). -/
structure Holidays where
  memorial_day : String
  juneteenth : String
  independence_day : String
  labor_day : String
deriving DecidableEq, Repr

/-- `calculate_holidays(year)`: Memorial Day is `May 31` minus
`weekday(May 31)` days (the last Monday of May), Juneteenth and
Independence Day are fixed, Labor Day is `Sept 1` plus `(-weekday) % 7`
days (the first Monday of September). -/
def calculate_holidays (year : Nat) : Holidays :=
  let wMay := pyWeekday year 5 31
  let memorial := 31 - wMay
  let wSep := pyWeekday year 9 1
  let labor := 1 + (7 - wSep) % 7
  { memorial_day := toString year ++ "-05-" ++ pad2 memorial
    juneteenth := toString year ++ "-06-19"
    independence_day := toString year ++ "-07-04"
    labor_day := toString year ++ "-09-" ++ pad2 labor }

/-- Parse `'%H:%M'` as `strptime` does (1–2 digit fields, hour `< 24`,
minute `< 60`, whole string consumed). -/
def parseHM (s : String) : Option (Nat × Nat) :=
  match strSplit ":" s with
  | [hs, ms] =>
    if 1 ≤ hs.length && hs.length ≤ 2 && hs.toList.all Char.isDigit &&
        1 ≤ ms.length && ms.length ≤ 2 && ms.toList.all Char.isDigit then
      match parseDigits hs.toList, parseDigits ms.toList with
      | some h, some m => if h < 24 && m < 60 then some (h, m) else none
      | _, _ => none
    else none
  | _ => none

/-- `convert_to_12hr`: empty in, empty out; a parseable `HH:MM` renders as
`strftime('%-I:%M %p').lower()`; anything else is returned unchanged
(the bare `except` branch).  Call sites always pass an already
stringified, stripped value, so the `pd.isna` guard is subsumed by the
empty-string check. -/
def convert_to_12hr (s : String) : String :=
  if s == "" then ""
  else
    match parseHM s with
    | some (h, m) =>
      let h12 := if h % 12 == 0 then 12 else h % 12
      let ampm := if h < 12 then "am" else "pm"
      toString h12 ++ ":" ++ pad2 m ++ " " ++ ampm
    | none => s

/-! ## DataFrame model -/

/-- A row: an association list from column name to cell value. -/
abbrev RawRow := List (String × Val)

/-- First binding for a key (pandas cells are unique per column; rows
built here never repeat a key). -/
def assocFind (r : RawRow) (k : String) : Option Val :=
  (r.find? (fun p => p.1 == k)).map (fun p => p.2)

/-- Set (or add) a cell, keeping the position of an existing binding. -/
def setCell (r : RawRow) (k : String) (v : Val) : RawRow :=
  match r with
  | [] => [(k, v)]
  | p :: rest => if p.1 == k then (k, v) :: rest else p :: setCell rest k v

/-- A DataFrame: column names plus rows. -/
structure Frame where
  cols : List String
  rows : List RawRow
deriving DecidableEq, Repr

/-- `Series.get(k, dflt)`: the default when `k` is not a column of the
frame, otherwise the cell (a column present on the frame but absent from
the row is a missing cell). -/
def getVd (cols : List String) (r : RawRow) (k : String) (dflt : Val) : Val :=
  if cols.contains k then (assocFind r k).getD .na else dflt

/-! ## Schema Mapper (`parse_choices`, `get_checkbox_fields`,
`build_mappings`) -/

/-- A key of a coded-value lookup: `int(code)` when the code parses,
otherwise the raw string code. -/
inductive ChoiceKey where
  | int (n : Int) : ChoiceKey
  | str (s : String) : ChoiceKey
deriving DecidableEq, Repr

/-- A coded-value → label lookup (a Python dict in insertion order; a
duplicate key overwrites, so lookup takes the last binding). -/
abbrev ChoiceMap := List (ChoiceKey × String)

/-- Dict lookup: the last binding for the key (`.map(dict)` yields `NaN`,
i.e. `none`, for an unmapped value). -/
def lookupChoice (m : ChoiceMap) (k : Option ChoiceKey) : Option String :=
  match k with
  | none => none
  | some key => ((m.filter (fun p => p.1 == key)).getLast?).map (fun p => p.2)

/-- The key a cell is looked up under by `.map(dict)` (`NaN` matches
nothing). -/
def keyOfVal : Val → Option ChoiceKey
  | .int n => some (.int n)
  | .str s => some (.str s)
  | _ => none

/-- One `code, label` entry of a pipe-delimited choice list; entries
without a comma are skipped. -/
def parseChoiceEntry (s : String) : Option (ChoiceKey × String) :=
  match strSplitFirst "," (strStrip s) with
  | none => none
  | some (code, label) =>
    match parseInt (strStrip code) with
    | some n => some (.int n, strStrip label)
    | none => some (.str (strStrip code), strStrip label)

/-- `parse_choices` applied to one `select_choices_or_calculations`
cell (`if not choices_str or str(choices_str) == 'nan': return {}`). -/
def parseChoicesVal (v : Val) : ChoiceMap :=
  if !v.truthy || strVal v == "nan" then []
  else (strSplit "|" (strVal v)).filterMap parseChoiceEntry

/-- `parse_choices(metadata, field_name)`. -/
def parse_choices (metadata : Frame) (field : String) : ChoiceMap :=
  match metadata.rows.find?
      (fun r => getVd metadata.cols r "field_name" .na == .str field) with
  | none => []
  | some r => parseChoicesVal (getVd metadata.cols r "select_choices_or_calculations" .na)

/-- `get_checkbox_fields` applied to one choice cell: synthesized
per-option field keys `base___code ↦ label`. -/
def checkboxFieldsVal (base : String) (v : Val) : List (String × String) :=
  if !v.truthy || strVal v == "nan" then []
  else (strSplit "|" (strVal v)).filterMap fun choice =>
    match strSplitFirst "," (strStrip choice) with
    | none => none
    | some (code, label) => some (base ++ "___" ++ strStrip code, strStrip label)

/-- `get_checkbox_fields(metadata, base_field_name)`. -/
def get_checkbox_fields (metadata : Frame) (base : String) : List (String × String) :=
  match metadata.rows.find?
      (fun r => getVd metadata.cols r "field_name" .na == .str base) with
  | none => []
  | some r => checkboxFieldsVal base (getVd metadata.cols r "select_choices_or_calculations" .na)

/-- The run's field mappings (`build_mappings`). -/
structure Mappings where
  state_codes : ChoiceMap
  site_types : ChoiceMap
  review_status : ChoiceMap
  services_offered : List (String × String)
  services_offered_update : List (String × String)
  dow : List (String × String)
  dow_update : List (String × String)
deriving DecidableEq, Repr

/-- `build_mappings(metadata)`. -/
def build_mappings (metadata : Frame) : Mappings :=
  { state_codes := parse_choices metadata "site_state"
    site_types := parse_choices metadata "site_type"
    review_status := parse_choices metadata "review_status"
    services_offered := get_checkbox_fields metadata "services_offered"
    services_offered_update := get_checkbox_fields metadata "services_offered_update"
    dow := get_checkbox_fields metadata "dow"
    dow_update := get_checkbox_fields metadata "dow_update" }

/-! ## Record Splitter (`split_preseason_and_updates`) -/

/-- Base rows: `redcap_repeat_instrument` missing or empty; override
rows: the `'in_season_updates'` sentinel. -/
def split_preseason_and_updates (df : Frame) : Frame × Frame :=
  ({ df with rows := df.rows.filter (fun r =>
      let v := getVd df.cols r "redcap_repeat_instrument" .na
      v == .na || v == .str "") },
   { df with rows := df.rows.filter (fun r =>
      getVd df.cols r "redcap_repeat_instrument" .na == .str "in_season_updates") })

/-! ## Site Records -/

/-- One cleaned site row, mirroring the columns `clean_data` builds.
`serviceFlags` holds the dynamically created `has_*` boolean columns in
creation order. -/
structure SiteRecord where
  record_id : Val
  organization_name : Val
  site_name : Val
  site_type : Option String
  contact_email : Val
  address : Val
  city : Val
  state : Option String
  zip_code : String
  full_address : Option String
  latitude : Val
  longitude : Val
  geocoded : Bool
  same_hours_everyday : Val
  opening_time : String
  closing_time : String
  full_schedule : String
  days_open : String
  monday_hours : String
  tuesday_hours : String
  wednesday_hours : String
  thursday_hours : String
  friday_hours : String
  saturday_hours : String
  sunday_hours : String
  serviceFlags : List (String × Bool)
  services_offered : String
  special_closure_dates : String
  review_status : Option String
  last_updated : String
  data_source : String
deriving DecidableEq, Repr

/-! ## Site Normalizer (`clean_data`) -/

/-- Weekday names in the order `clean_data` uses. -/
def dayIdx : List (String × Nat) :=
  [("Monday", 1), ("Tuesday", 2), ("Wednesday", 3), ("Thursday", 4),
   ("Friday", 5), ("Saturday", 6), ("Sunday", 7)]

/-- Open days from the `base___i` checkbox columns
(`checkbox_value == 1 or checkbox_value == '1'`). -/
def openDaysFrom (cols : List String) (r : RawRow) (base : String) : List String :=
  dayIdx.filterMap fun p =>
    if (getVd cols r (base ++ "___" ++ toString p.2) .na).isChecked then some p.1 else none

/-- The schedule-related columns produced for one row. -/
structure Sched where
  opening_time : String
  closing_time : String
  full_schedule : String
  days_open : String
  monday_hours : String
  tuesday_hours : String
  wednesday_hours : String
  thursday_hours : String
  friday_hours : String
  saturday_hours : String
  sunday_hours : String
deriving DecidableEq, Repr

/-- One per-day block of the different-hours branch: the `day_hours`
cell and the optional `full_schedule` part. -/
def perDayClean (cols : List String) (r : RawRow) (openDays : List String)
    (day pre : String) : String × Option String :=
  let o := strStrip (strVal (getVd cols r (pre ++ "_start") (.str "")))
  let c := strStrip (strVal (getVd cols r (pre ++ "_close") (.str "")))
  if openDays.contains day && o != "" && c != "" then
    (o ++ " - " ++ c, some (day ++ ": " ++ convert_to_12hr o ++ " - " ++ convert_to_12hr c))
  else ("", none)

/-- The schedule block of `clean_data` for one row.  In the source, a
row with truthy `same_hours_everyday` whose converted times are not both
nonempty appends to `opening_times`/`closing_times` twice (once before
the check, once in the `else` branch), so those lists end up longer than
the frame and the later column assignment raises `ValueError` — that
whole-batch failure is the `Except` error case here. -/
def scheduleOf (cols : List String) (r : RawRow) : Except String Sched :=
  let openDays := openDaysFrom cols r "dow"
  let daysOpen := String.intercalate ", " openDays
  let sameHours :=
    if cols.contains "same_hours_everyday" then
      ((assocFind r "same_hours_everyday").getD .na).truthy
    else false
  if sameHours then
    let opening := strStrip (strVal (getVd cols r "standard_start_time" (.str "")))
    let closing := strStrip (strVal (getVd cols r "standard_close_time" (.str "")))
    let o12 := convert_to_12hr opening
    let c12 := convert_to_12hr closing
    if o12 != "" && c12 != "" then
      let hoursStr := opening ++ " - " ++ closing
      .ok { opening_time := opening
            closing_time := closing
            full_schedule := daysOpen ++ ": " ++ o12 ++ " - " ++ c12
            days_open := daysOpen
            monday_hours := if openDays.contains "Monday" then hoursStr else ""
            tuesday_hours := if openDays.contains "Tuesday" then hoursStr else ""
            wednesday_hours := if openDays.contains "Wednesday" then hoursStr else ""
            thursday_hours := if openDays.contains "Thursday" then hoursStr else ""
            friday_hours := if openDays.contains "Friday" then hoursStr else ""
            saturday_hours := if openDays.contains "Saturday" then hoursStr else ""
            sunday_hours := if openDays.contains "Sunday" then hoursStr else "" }
    else
      .error "Length of values does not match length of index"
  else
    let mon := perDayClean cols r openDays "Monday" "mon"
    let tue := perDayClean cols r openDays "Tuesday" "tues"
    let wed := perDayClean cols r openDays "Wednesday" "wed"
    let thu := perDayClean cols r openDays "Thursday" "thurs"
    let fri := perDayClean cols r openDays "Friday" "fri"
    let sat := perDayClean cols r openDays "Saturday" "sat"
    let sun := perDayClean cols r openDays "Sunday" "sun"
    let parts := [mon.2, tue.2, wed.2, thu.2, fri.2, sat.2, sun.2].filterMap id
    .ok { opening_time := ""
          closing_time := ""
          full_schedule := String.intercalate "; " parts
          days_open := daysOpen
          monday_hours := mon.1
          tuesday_hours := tue.1
          wednesday_hours := wed.1
          thursday_hours := thu.1
          friday_hours := fri.1
          saturday_hours := sat.1
          sunday_hours := sun.1 }

/-- `'has_' + label.lower().replace(' ', '_').replace('-', '_')`. -/
def cleanField (label : String) : String :=
  "has_" ++ strReplace "-" "_" (strReplace " " "_" (strLower label))

/-- Set (or create) a `has_*` flag column cell, keeping the position of
an existing binding (column creation order). -/
def setServiceFlag (flags : List (String × Bool)) (k : String) (b : Bool) :
    List (String × Bool) :=
  match flags with
  | [] => [(k, b)]
  | p :: rest => if p.1 == k then (k, b) :: rest else p :: setServiceFlag rest k b

/-- The services block of `clean_data` for one row: for every mapped
checkbox field that exists as a column, the flag is `bool(value)` and the
label is appended to the list when `value == 1`. -/
def servicesOf (cols : List String) (svcMap : List (String × String)) (r : RawRow) :
    List (String × Bool) × String :=
  let res := svcMap.foldl
    (fun acc p =>
      if cols.contains p.1 then
        let v := getVd cols r p.1 (.int 0)
        (setServiceFlag acc.1 (cleanField p.2) v.truthy,
         if v == .int 1 then acc.2 ++ [p.2] else acc.2)
      else acc)
    ([], [])
  (res.1, String.intercalate ", " res.2)

/-- The closures block of `clean_data` for one row: up to ten explicit
`closure_i` dates first, then each holiday whose field equals the
"closed" code `2` (Independence Day also honours a legacy `july_4`
field). -/
def closuresOf (cols : List String) (r : RawRow) : String :=
  let holidays := calculate_holidays 2026
  let explicit := (List.range 10).filterMap fun i =>
    let v := getVd cols r ("closure_" ++ toString (i + 1)) .na
    if v.notna then some (strVal v) else none
  let hol :=
    (if (getVd cols r "memorial_day" .na).eqTwo then [holidays.memorial_day] else []) ++
    (if (getVd cols r "juneteenth" .na).eqTwo then [holidays.juneteenth] else []) ++
    (if (getVd cols r "independence_day" .na).eqTwo ||
        (getVd cols r "july_4" .na).eqTwo then [holidays.independence_day] else []) ++
    (if (getVd cols r "labor_day" .na).eqTwo then [holidays.labor_day] else [])
  String.intercalate ", " (explicit ++ hol)

/-- `preseason_df['review_status'].fillna(1)` on one cell. -/
def fillna1 (v : Val) : Val :=
  if v == .na then .int 1 else v

/-- Line 424 of the source for one cell:
`fillna(1).astype(int).map(mappings['review_status'])`.  The cast raises
on a non-integer string; `.map` yields `NaN` (`none`) for a code the
lookup does not contain. -/
def resolveReviewStatus (m : ChoiceMap) (v : Val) : Except String (Option String) := do
  let code ← (fillna1 v).toIntE
  pure (lookupChoice m (some (.int code)))

/-- A cell as a member of a pandas string column (`NaN` propagates
through string concatenation, giving a missing `full_address`). -/
def asStr : Val → Option String
  | .str s => some s
  | _ => none

/-- `clean_data` restricted to one row.  The fallible steps are the
whole-column `astype(int)` casts on `site_state`, `site_zip` and
`review_status`, and the schedule-list misalignment (see `scheduleOf`);
their failures abort the whole batch in the source, in source order. -/
def cleanRow (cols : List String) (m : Mappings) (now : String) (r : RawRow) :
    Except String SiteRecord := do
  let stateCode ← (getVd cols r "site_state" .na).toIntE
  let zipInt ← (getVd cols r "site_zip" .na).toIntE
  let sched ← scheduleOf cols r
  let review ← resolveReviewStatus m.review_status (getVd cols r "review_status" .na)
  let zip := zfill 5 (toString zipInt)
  let svc := servicesOf cols m.services_offered r
  let siteTypeFull := lookupChoice m.site_types (keyOfVal (getVd cols r "site_type" .na))
  pure
    { record_id := getVd cols r "record_id" .na
      organization_name := getVd cols r "hrs_org" .na
      site_name := getVd cols r "hrs_location" .na
      site_type := siteTypeFull.map fun s => (strSplit " - " s).headD s
      contact_email := getVd cols r "site_email" .na
      address := getVd cols r "site_address" .na
      city := getVd cols r "site_city" .na
      state := lookupChoice m.state_codes (some (.int stateCode))
      zip_code := zip
      full_address := do
        let a ← asStr (getVd cols r "site_address" .na)
        let c ← asStr (getVd cols r "site_city" .na)
        let st ← lookupChoice m.state_codes (some (.int stateCode))
        pure (a ++ ", " ++ c ++ ", " ++ st ++ " " ++ zip)
      latitude := .na
      longitude := .na
      geocoded := false
      same_hours_everyday := getVd cols r "same_hours_everyday" .na
      opening_time := sched.opening_time
      closing_time := sched.closing_time
      full_schedule := sched.full_schedule
      days_open := sched.days_open
      monday_hours := sched.monday_hours
      tuesday_hours := sched.tuesday_hours
      wednesday_hours := sched.wednesday_hours
      thursday_hours := sched.thursday_hours
      friday_hours := sched.friday_hours
      saturday_hours := sched.saturday_hours
      sunday_hours := sched.sunday_hours
      serviceFlags := svc.1
      services_offered := svc.2
      special_closure_dates := closuresOf cols r
      review_status := review
      last_updated := now
      data_source := "preseason" }

/-- `clean_data`: normalize every base row.  pandas performs the
fallible casts column-wise, so any failure anywhere yields no output at
all — the `Except` error case. -/
def clean_data (cols : List String) (m : Mappings) (now : String) :
    List RawRow → Except String (List SiteRecord)
  | [] => .ok []
  | r :: rest => do
    let s ← cleanRow cols m now r
    let others ← clean_data cols m now rest
    pure (s :: others)

/-! ## Geocoding Cache Manager (`geocode_addresses`) -/

/-- One row of the previous snapshot CSV, as the cache-seeding loop
reads it. -/
structure SnapRow where
  record_id : Val
  latitude : Val
  longitude : Val
deriving DecidableEq, Repr

/-- Dict insert for the cache (value of an existing key is replaced). -/
def setCache (cache : List (String × Val × Val)) (k : String) (v : Val × Val) :
    List (String × Val × Val) :=
  match cache with
  | [] => [(k, v)]
  | p :: rest => if p.1 == k then (k, v) :: rest else p :: setCache rest k v

/-- `previously_geocoded`: one entry per snapshot row whose *latitude* is
non-missing (the longitude is copied along unchecked), keyed by
`str(record_id)`. -/
def buildCache (snap : List SnapRow) : List (String × Val × Val) :=
  snap.foldl
    (fun acc row =>
      if row.latitude.notna then
        setCache acc (strVal row.record_id) (row.latitude, row.longitude)
      else acc)
    []

/-- Cache lookup. -/
def cacheLookup (cache : List (String × Val × Val)) (k : String) :
    Option (Val × Val) :=
  (cache.find? (fun p => p.1 == k)).map (fun p => p.2)

/-- The per-row body of the geocoding loop.  The external geocoder is
abstracted as a function from the request address to the top-ranked
result's `(longitude, latitude)`, `none` covering both an empty
`features` list and a request failure (in each case the row is left
unchanged).  The second component records the address of the request
actually issued, if any. -/
def geocodeRow (cache : List (String × Val × Val))
    (geocoder : String → Option (Val × Val)) (r : SiteRecord) :
    SiteRecord × Option String :=
  match cacheLookup cache (strVal r.record_id) with
  | some lalo =>
    ({ r with latitude := lalo.1, longitude := lalo.2, geocoded := true }, none)
  | none =>
    if r.review_status != some "Accepted" then (r, none)
    else
      let addr := match r.full_address with
        | some s => s
        | none => "nan"
      match geocoder addr with
      | some coords =>
        ({ r with longitude := coords.1, latitude := coords.2, geocoded := true },
         some addr)
      | none => (r, some addr)

/-- `geocode_addresses`: a no-op without credentials; otherwise seed the
cache from the previous snapshot and process every row.  Returns the
rows plus the list of geocoder requests issued. -/
def geocode_addresses (tokenPresent : Bool) (snap : List SnapRow)
    (geocoder : String → Option (Val × Val)) (df : List SiteRecord) :
    List SiteRecord × List String :=
  if !tokenPresent then (df, [])
  else
    let cache := buildCache snap
    let results := df.map (geocodeRow cache geocoder)
    (results.map (fun p => p.1), results.filterMap (fun p => p.2))

/-! ## Update Reconciler (`apply_updates`) -/

/-- `pd.to_datetime` on the `update_date` column when present; otherwise
add the column holding the run time (`datetime.now()`) in every row. -/
def ensureUpdateDate (u : Frame) (nowD : Nat) : Frame :=
  if u.cols.contains "update_date" then
    { u with rows := u.rows.map fun r =>
        setCell r "update_date" (parseDateVal (getVd u.cols r "update_date" .na)) }
  else
    { cols := u.cols ++ ["update_date"]
      rows := u.rows.map fun r => setCell r "update_date" (.date nowD) }

/-- The sort key of `sort_values('update_date')` (`none` is `NaT`, placed
last). -/
def dateKey (cols : List String) (r : RawRow) : Option Nat :=
  match getVd cols r "update_date" .na with
  | .date n => some n
  | _ => none

/-- Ascending order on sort keys with `NaT` last. -/
def dateLe : Option Nat → Option Nat → Bool
  | some a, some b => a ≤ b
  | some _, none => true
  | none, some _ => false
  | none, none => true

/-- Stable insertion of a row into a date-sorted list. -/
def insertRowByDate (cols : List String) (r : RawRow) :
    List RawRow → List RawRow
  | [] => [r]
  | y :: ys =>
    if dateLe (dateKey cols r) (dateKey cols y) then r :: y :: ys
    else y :: insertRowByDate cols r ys

/-- `sort_values('update_date')` as a stable insertion sort.  (pandas
defaults to an unstable quicksort, so the relative order of rows with
*equal* dates is implementation-defined there; no settled claim below
relies on equal-date ordering.) -/
def sortRowsByDate (cols : List String) : List RawRow → List RawRow
  | [] => []
  | r :: rs => insertRowByDate cols r (sortRowsByDate cols rs)

/-- The `record_id` cell of an update row. -/
def recordIdOf (cols : List String) (r : RawRow) : Val :=
  getVd cols r "record_id" .na

/-- Group keys in first-occurrence order.  (pandas `groupby` iterates
groups in sorted key order; the processing order across distinct keys is
immaterial because each group mutates a different `clean_df` row.) -/
def dedupKeys (l : List Val) : List Val :=
  l.foldl (fun acc v => if acc.contains v then acc else acc ++ [v]) []

/-- One group of `updates_df.sort_values('update_date')
.groupby('record_id')`, kept as its (date-sorted) member rows plus the
frame's columns. -/
structure Agg where
  cols : List String
  rows : List RawRow
deriving DecidableEq, Repr

/-- The last non-missing value of a list of cells (missing when all
are). -/
def lastNonNa (vs : List Val) : Val :=
  ((vs.filter (fun v => v != .na)).getLast?).getD .na

/-- `GroupBy.last()` followed by `Series.get(c, dflt)`: per *column*, the
last non-null entry of the group (not the last row!); `record_id` became
the group index and is no longer gettable; a name that is not a column
yields the default. -/
def Agg.get (a : Agg) (c : String) (dflt : Val) : Val :=
  if a.cols.contains c && c != "record_id" then
    lastNonNa (a.rows.map (fun r => getVd a.cols r c .na))
  else dflt

/-- Open days from the `dow_update___i` checkboxes of the aggregated
override. -/
def openDaysUpdate (a : Agg) : List String :=
  dayIdx.filterMap fun p =>
    if (a.get ("dow_update___" ++ toString p.2) .na).isChecked then some p.1 else none

/-- One per-day block of the different-hours update branch. -/
def perDayUpdate (a : Agg) (openDays : List String) (day pre : String) :
    String × Option String :=
  let o := strStrip (strVal (a.get (pre ++ "_start_update") (.str "")))
  let c := strStrip (strVal (a.get (pre ++ "_close_update") (.str "")))
  if openDays.contains day && o != "" && c != "" then
    (o ++ " - " ++ c, some (day ++ ": " ++ convert_to_12hr o ++ " - " ++ convert_to_12hr c))
  else ("", none)

/-- The hours block of `apply_updates` for one site: entered only when
`same_hours_everyday_update` is non-missing; `site_updated` is reported
*only* when a schedule is actually produced (the truthy branch with both
times invalid still overwrites four fields yet reports `false`). -/
def applyHoursUpdate (a : Agg) (s : SiteRecord) : SiteRecord × Bool :=
  let sameHU := a.get "same_hours_everyday_update" .na
  if sameHU.notna then
    let openDays := openDaysUpdate a
    let daysOpen := String.intercalate ", " openDays
    if sameHU.truthy then
      let opening := strStrip (strVal (a.get "standard_start_time_update" (.str "")))
      let closing := strStrip (strVal (a.get "standard_close_time_update" (.str "")))
      let o12 := convert_to_12hr opening
      let c12 := convert_to_12hr closing
      if o12 != "" && c12 != "" then
        let hoursStr := opening ++ " - " ++ closing
        ({ s with
            same_hours_everyday := sameHU
            days_open := daysOpen
            opening_time := opening
            closing_time := closing
            full_schedule := daysOpen ++ ": " ++ o12 ++ " - " ++ c12
            monday_hours := if openDays.contains "Monday" then hoursStr else ""
            tuesday_hours := if openDays.contains "Tuesday" then hoursStr else ""
            wednesday_hours := if openDays.contains "Wednesday" then hoursStr else ""
            thursday_hours := if openDays.contains "Thursday" then hoursStr else ""
            friday_hours := if openDays.contains "Friday" then hoursStr else ""
            saturday_hours := if openDays.contains "Saturday" then hoursStr else ""
            sunday_hours := if openDays.contains "Sunday" then hoursStr else "" },
         true)
      else
        ({ s with
            same_hours_everyday := sameHU
            days_open := daysOpen
            opening_time := opening
            closing_time := closing },
         false)
    else
      let mon := perDayUpdate a openDays "Monday" "mon"
      let tue := perDayUpdate a openDays "Tuesday" "tues"
      let wed := perDayUpdate a openDays "Wednesday" "wed"
      let thu := perDayUpdate a openDays "Thursday" "thurs"
      let fri := perDayUpdate a openDays "Friday" "fri"
      let sat := perDayUpdate a openDays "Saturday" "sat"
      let sun := perDayUpdate a openDays "Sunday" "sun"
      let parts := [mon.2, tue.2, wed.2, thu.2, fri.2, sat.2, sun.2].filterMap id
      ({ s with
          same_hours_everyday := sameHU
          days_open := daysOpen
          opening_time := ""
          closing_time := ""
          full_schedule := String.intercalate "; " parts
          monday_hours := mon.1
          tuesday_hours := tue.1
          wednesday_hours := wed.1
          thursday_hours := thu.1
          friday_hours := fri.1
          saturday_hours := sat.1
          sunday_hours := sun.1 },
       true)
  else (s, false)

/-- One mapped service field of the services block: a field present among
the update columns is *always* written — `True` (and the label collected,
and the site marked updated) when the override value equals `1`,
`False` otherwise, including when the value is missing. -/
def svcUpdStep (a : Agg) (acc : SiteRecord × List String × Bool)
    (p : String × String) : SiteRecord × List String × Bool :=
  if a.cols.contains p.1 then
    if a.get p.1 (.int 0) == .int 1 then
      ({ acc.1 with serviceFlags := setServiceFlag acc.1.serviceFlags (cleanField p.2) true },
       acc.2.1 ++ [p.2], true)
    else
      ({ acc.1 with serviceFlags := setServiceFlag acc.1.serviceFlags (cleanField p.2) false },
       acc.2.1, acc.2.2)
  else acc

/-- The services block of `apply_updates` for one site;
`services_offered` itself is rewritten only when at least one override
service equals `1`. -/
def applyServicesUpdate (svcMap : List (String × String)) (a : Agg)
    (s : SiteRecord) : SiteRecord × Bool :=
  let res := svcMap.foldl (svcUpdStep a) (s, [], false)
  (if res.2.1 != [] then
      { res.1 with services_offered := String.intercalate ", " res.2.1 }
    else res.1,
   res.2.2)

/-- The closures block of `apply_updates` for one site, entered only when
`other_closures_updates` is non-missing (the holidays recomputed there in
the source are never used). -/
def applyClosuresUpdate (a : Agg) (s : SiteRecord) : SiteRecord × Bool :=
  if (a.get "other_closures_updates" .na).notna then
    let dates := (List.range 10).filterMap fun i =>
      let v := a.get ("closure_" ++ toString (i + 1) ++ "_update") .na
      if v.notna then some (strVal v) else none
    ({ s with special_closure_dates := String.intercalate ", " dates }, true)
  else (s, false)

/-- The whole per-site body of the `apply_updates` loop. -/
def applyUpdatesRow (m : Mappings) (a : Agg) (nowStr : String)
    (site : SiteRecord) : SiteRecord :=
  let h := applyHoursUpdate a site
  let sv := applyServicesUpdate m.services_offered_update a h.1
  let cl := applyClosuresUpdate a sv.1
  if h.2 || sv.2 || cl.2 then
    { cl.1 with last_updated := nowStr, data_source := "in-season update" }
  else cl.1

/-- Apply `f` to the first site matching the key
(`clean_df[mask].index[0]`); an unmatched key (override orphan) is
skipped. -/
def updateFirst (l : List SiteRecord) (k : Val) (f : SiteRecord → SiteRecord) :
    List SiteRecord :=
  match l with
  | [] => []
  | s :: rest =>
    if s.record_id == k then f s :: rest else s :: updateFirst rest k f

/-- `apply_updates`. -/
def apply_updates (clean : List SiteRecord) (u : Frame) (m : Mappings)
    (nowD : Nat) (nowStr : String) : List SiteRecord :=
  if u.rows.isEmpty then clean
  else
    let u2 := ensureUpdateDate u nowD
    let sorted := sortRowsByDate u2.cols u2.rows
    let keys := dedupKeys (sorted.map (recordIdOf u2.cols))
    keys.foldl
      (fun acc k =>
        updateFirst acc k
          (applyUpdatesRow m
            { cols := u2.cols, rows := sorted.filter (fun r => recordIdOf u2.cols r == k) }
            nowStr))
      clean

/-! ## Filter and pipeline composition (`filter_accepted_only`, `main`) -/

/-- `filter_accepted_only`. -/
def filter_accepted_only (df : List SiteRecord) : List SiteRecord :=
  df.filter (fun r => r.review_status == some "Accepted")

/-- The records `main` hands to `geocode_addresses`: the output of
`clean_data` on the base rows — `main` runs geocoding *before*
`apply_updates`. -/
def mainGeocodeInput (raw : Frame) (m : Mappings) (now : String) :
    Except String (List SiteRecord) :=
  let pre := (split_preseason_and_updates raw).1
  clean_data pre.cols m now pre.rows

/-- Modelled from the spec's data flow (§2): the "reconciled Site
Records", i.e. the Update Reconciler applied to the canonical Site
Records before any geocoding.  Used to compare the spec's claimed stage
order with `main`'s. -/
def specReconciled (raw : Frame) (m : Mappings) (now : String) (nowD : Nat) :
    Except String (List SiteRecord) :=
  (mainGeocodeInput raw m now).map
    (fun c => apply_updates c (split_preseason_and_updates raw).2 m nowD now)

/-- `main`'s stage composition: clean, then geocode, then apply updates,
then filter. -/
def main_pipeline (raw : Frame) (m : Mappings) (tokenPresent : Bool)
    (snap : List SnapRow) (geocoder : String → Option (Val × Val))
    (now : String) (nowD : Nat) : Except String (List SiteRecord) := do
  let cleaned ← mainGeocodeInput raw m now
  let geo := geocode_addresses tokenPresent snap geocoder cleaned
  pure (filter_accepted_only
    (apply_updates geo.1 (split_preseason_and_updates raw).2 m nowD now))

/-- A site record with every field empty or missing; the base value the
concrete instances below are built from. -/
def blankSite : SiteRecord :=
  { record_id := .na
    organization_name := .na
    site_name := .na
    site_type := none
    contact_email := .na
    address := .na
    city := .na
    state := none
    zip_code := ""
    full_address := none
    latitude := .na
    longitude := .na
    geocoded := false
    same_hours_everyday := .na
    opening_time := ""
    closing_time := ""
    full_schedule := ""
    days_open := ""
    monday_hours := ""
    tuesday_hours := ""
    wednesday_hours := ""
    thursday_hours := ""
    friday_hours := ""
    saturday_hours := ""
    sunday_hours := ""
    serviceFlags := []
    services_offered := ""
    special_closure_dates := ""
    review_status := none
    last_updated := ""
    data_source := "preseason" }

/-! ## Spec-side definitions and views used by the theorems -/

/-- Erase the timestamp field (claims about "identical except
`last_updated`" compare records through this). -/
def eraseTs (s : SiteRecord) : SiteRecord :=
  { s with last_updated := "" }

/-- The fields the geocoding step reads or writes:
`record_id`, `full_address`, `review_status`, the coordinates and the
`geocoded` flag. -/
def geoView (r : SiteRecord) :
    Val × Option String × Option String × Val × Val × Bool :=
  (r.record_id, r.full_address, r.review_status, r.latitude, r.longitude, r.geocoded)

/-- Whether an `Except` computation succeeded. -/
def exceptOk {α : Type} : Except String α → Bool
  | .ok _ => true
  | .error _ => false

deriving instance DecidableEq for Except

/-- A `has_*` flag column of a site record, as an optional cell. -/
def flagOf (flags : List (String × Bool)) (k : String) : Option Bool :=
  (flags.find? (fun q => q.1 == k)).map (fun q => q.2)

/-- Modelled from the spec (§4.4): "the previous snapshot contains a
non-missing coordinate pair for this `record_id`" — both coordinates
non-missing, record identity compared the way the code keys its cache
(via `str(record_id)`). -/
def specCacheHasCoordPair (snap : List SnapRow) (rid : Val) : Bool :=
  snap.any fun row =>
    strVal row.record_id == strVal rid && row.latitude.notna && row.longitude.notna

/-- The sort key the spec-side winning-override selection uses. -/
def specDateKey (cols : List String) (r : RawRow) : Option Nat :=
  match parseDateVal (getVd cols r "update_date" .na) with
  | .date n => some n
  | _ => none

/-- Modelled from the spec (§4.3): the single override row applied to a
group — "the one with the maximum `update_date` (ties broken by input
order — last one wins)". -/
def specWinningOverride (cols : List String) (rows : List RawRow) : Option RawRow :=
  rows.foldl
    (fun best r =>
      match best with
      | none => some r
      | some b => if dateLe (specDateKey cols b) (specDateKey cols r) then some r else some b)
    none

/-! ## Concrete fixtures -/

/-- A mappings value with every lookup empty. -/
def emptyMappings : Mappings :=
  { state_codes := []
    site_types := []
    review_status := []
    services_offered := []
    services_offered_update := []
    dow := []
    dow_update := [] }

/-- Columns of the demo base frame. -/
def demoCols : List String :=
  ["record_id", "hrs_org", "hrs_location", "site_type", "site_email",
   "site_address", "site_city", "site_state", "site_zip", "same_hours_everyday",
   "standard_start_time", "standard_close_time", "dow___1", "dow___2", "dow___3",
   "dow___4", "dow___5", "dow___6", "dow___7", "review_status",
   "services_offered___1", "closure_1", "closure_2", "memorial_day",
   "juneteenth", "independence_day", "labor_day"]

/-- Demo mappings: one state, one site type, the three review statuses,
one service checkbox on each side. -/
def demoM : Mappings :=
  { state_codes := [(.int 1, "AZ")]
    site_types := [(.int 1, "Cooling Center - open to public")]
    review_status := [(.int 1, "Pending"), (.int 2, "Under Review"), (.int 3, "Accepted")]
    services_offered := [("services_offered___1", "Charging")]
    services_offered_update := [("services_offered_update___1", "Charging")]
    dow := []
    dow_update := [] }

/-- A demo base row: accepted site, same hours every day `08:00`–`17:00`,
open Monday and Wednesday. -/
def demoBaseRow : RawRow :=
  [("record_id", .int 5), ("hrs_org", .str "Org"), ("hrs_location", .str "Loc"),
   ("site_type", .int 1), ("site_email", .str "org@example.com"),
   ("site_address", .str "1 Main St"), ("site_city", .str "Phoenix"),
   ("site_state", .int 1), ("site_zip", .int 85001),
   ("same_hours_everyday", .int 1), ("standard_start_time", .str "08:00"),
   ("standard_close_time", .str "17:00"), ("dow___1", .int 1), ("dow___2", .int 0),
   ("dow___3", .int 1), ("dow___4", .int 0), ("dow___5", .int 0),
   ("dow___6", .int 0), ("dow___7", .int 0), ("review_status", .int 3)]

/-- C1 fixture: a previous-snapshot row with a latitude but no
longitude. -/
def c1Snap : SnapRow :=
  { record_id := .int 7, latitude := .str "33.4", longitude := .na }

/-- C1 fixture: an accepted site with the same `record_id`. -/
def c1Site : SiteRecord :=
  { blankSite with
    record_id := .int 7
    review_status := some "Accepted"
    full_address := some "1 Main St, Phoenix, AZ 85001" }

/-- C1 fixture: a geocoder that would answer if called. -/
def c1Geo : String → Option (Val × Val) := fun _ => some (.str "-112.07", .str "33.45")

/-- C3/C6 fixture: a minimal already-clean site. -/
def c3Site : SiteRecord :=
  { blankSite with
    record_id := .int 1
    last_updated := "T0" }

/-- C3 fixture: columns of the override frame. -/
def c3Cols : List String :=
  ["record_id", "update_date", "same_hours_everyday_update",
   "standard_start_time_update", "standard_close_time_update", "dow_update___1"]

/-- C3 fixture: the earlier override, carrying full schedule fields. -/
def c3RowA : RawRow :=
  [("record_id", .int 1), ("update_date", .str "2026-05-01"),
   ("same_hours_everyday_update", .int 1),
   ("standard_start_time_update", .str "09:00"),
   ("standard_close_time_update", .str "17:00"), ("dow_update___1", .int 1)]

/-- C3 fixture: the later override (maximum `update_date`), with the
schedule time fields left missing. -/
def c3RowB : RawRow :=
  [("record_id", .int 1), ("update_date", .str "2026-05-10"),
   ("same_hours_everyday_update", .int 1)]

/-- C3 fixture: both overrides. -/
def c3Frame : Frame := { cols := c3Cols, rows := [c3RowA, c3RowB] }

/-- C3 fixture: only the winning override. -/
def c3FrameB : Frame := { cols := c3Cols, rows := [c3RowB] }

/-- C6/C8 fixture: a site that offers charging. -/
def c6Site : SiteRecord :=
  { blankSite with
    record_id := .int 1
    last_updated := "T0"
    serviceFlags := [("has_charging", true)]
    services_offered := "Charging" }

/-- C6 fixture: columns of the override frame. -/
def c6Cols : List String :=
  ["record_id", "update_date", "services_offered_update___1"]

/-- C6 fixture: an override carrying no schedule marker, no closures
marker and a missing service cell — no field group present. -/
def c6Row : RawRow :=
  [("record_id", .int 1), ("update_date", .str "2026-05-10")]

/-- C6 fixture frame. -/
def c6Frame : Frame := { cols := c6Cols, rows := [c6Row] }

/-- C8 fixture: an override whose only service checkbox is explicitly
`0`. -/
def c8Row : RawRow :=
  [("record_id", .int 5), ("update_date", .str "2026-05-10"),
   ("services_offered_update___1", .int 0)]

/-- C8 fixture frame. -/
def c8Frame : Frame := { cols := c6Cols, rows := [c8Row] }

/-- C8 fixture: the demo base row with its service checkbox set. -/
def c8BaseRow : RawRow :=
  setCell demoBaseRow "services_offered___1" (.int 1)

/-- C4 fixture: the demo base row with a review-status code the lookup
does not contain. -/
def c4Row : RawRow :=
  setCell demoBaseRow "review_status" (.int 5)

/-- C7 fixture: the demo base row with an unparseable zip. -/
def c7BadRow : RawRow :=
  setCell demoBaseRow "site_zip" (.str "abc")

/-- C5 fixture: the raw frame — one base row, one in-season update row
that changes the schedule. -/
def c5Raw : Frame :=
  { cols := demoCols ++
      ["redcap_repeat_instrument", "update_date", "same_hours_everyday_update",
       "standard_start_time_update", "standard_close_time_update", "dow_update___1"]
    rows :=
      [demoBaseRow,
       [("record_id", .int 5), ("redcap_repeat_instrument", .str "in_season_updates"),
        ("update_date", .str "2026-06-01"), ("same_hours_everyday_update", .int 1),
        ("standard_start_time_update", .str "09:00"),
        ("standard_close_time_update", .str "18:00"), ("dow_update___1", .int 1)]] }

/-- C10 fixture: the demo base row with one explicit closure date and
`memorial_day` marked closed (code `2`). -/
def c10Row : RawRow :=
  setCell (setCell demoBaseRow "closure_1" (.str "2026-07-01")) "memorial_day" (.int 2)

/-- Whether one base row passes every fallible step of `clean_data`
(the `site_state`, `site_zip` and `review_status` integer casts and the
schedule-list alignment). -/
def rowParses (cols : List String) (m : Mappings) (r : RawRow) : Bool :=
  exceptOk ((getVd cols r "site_state" .na).toIntE) &&
  exceptOk ((getVd cols r "site_zip" .na).toIntE) &&
  exceptOk (scheduleOf cols r) &&
  exceptOk (resolveReviewStatus m.review_status (getVd cols r "review_status" .na))

/-- The service labels `clean_data` collects for a row: those of the
mapped checkbox fields that exist as columns and whose cell equals `1`,
in mapping order. -/
def svcSelected (cols : List String) (svcMap : List (String × String)) (r : RawRow) :
    List String :=
  (svcMap.filter fun p =>
    cols.contains p.1 && (getVd cols r p.1 (.int 0) == Val.int 1)).map (fun p => p.2)

/-- C6 fixture: the group the reconciler builds for the `c6Frame`
override (the `update_date` column parsed in place). -/
def c6AggW : Agg :=
  { cols := c6Cols, rows := [setCell c6Row "update_date" (.date 20260510)] }

/-! ## Theorems -/

/-- Claim C9: a base row with `same_hours_everyday = true`,
`standard_start_time = "08:00"`, `standard_close_time = "17:00"` and open
days Monday and Wednesday normalizes to `monday_hours = "08:00 - 17:00"`,
`tuesday_hours = ""` and
`full_schedule = "Monday, Wednesday: 8:00 am - 5:00 pm"` — the per-day
fields keep the raw 24-hour form, closed days stay empty, and
`full_schedule` uses the 12-hour display form. -/
theorem c9_theorem :
    (cleanRow demoCols demoM "T0" demoBaseRow).map
      (fun r => (r.monday_hours, r.tuesday_hours, r.full_schedule)) =
    .ok ("08:00 - 17:00", "", "Monday, Wednesday: 8:00 am - 5:00 pm") := by
  decide

/-- Claim C10: a base row with explicit closure `"2026-07-01"` and
`memorial_day` marked closed (code `2`) yields
`special_closure_dates = "2026-07-01, 2026-05-25"` — the explicit dates
first, then the computed Memorial Day; `2026-05-25` is the last Monday
of May 2026 as computed by `calculate_holidays`, and explicit dates
beyond the tenth (`closure_11`) are ignored. -/
theorem c10_theorem :
    (cleanRow demoCols demoM "T0" c10Row).map (fun r => r.special_closure_dates) =
      .ok "2026-07-01, 2026-05-25" ∧
    (calculate_holidays 2026).memorial_day = "2026-05-25" ∧
    (pyWeekday 2026 5 25 = 0 ∧ ∀ d < 32, pyWeekday 2026 5 d = 0 → d ≤ 25) ∧
    closuresOf (demoCols ++ ["closure_11"]) (setCell c10Row "closure_11" (.str "2026-08-01")) =
      closuresOf demoCols c10Row := by
  refine ⟨by decide, by decide, ⟨by decide, by decide⟩, by decide⟩

/-- Claim C4 — counterexample: with the demo lookup
(`1 ↦ Pending, 2 ↦ Under Review, 3 ↦ Accepted`), a base row whose
`review_status` code `5` is not in the lookup normalizes to a *missing*
status (`.map` yields `NaN`), not the label `'Pending'`. -/
theorem c4_counterexample :
    lookupChoice demoM.review_status (some (.int 5)) = none ∧
    (cleanRow demoCols demoM "T0" c4Row).map (fun r => r.review_status) = .ok none ∧
    (cleanRow demoCols demoM "T0" c4Row).map (fun r => r.review_status) ≠ .ok (some "Pending") := by
  refine ⟨by decide, by decide, by decide⟩

/-- Claim C4 (amended): a missing `review_status` code resolves to
whatever label the lookup assigns to code `1` (hence `'Pending'` exactly
when the fetched schema maps `1 ↦ Pending`); a non-missing integer code
absent from the lookup resolves to a missing label, not `'Pending'`; and
a non-integer string code makes the cast raise, aborting normalization of
the whole batch. -/
theorem c4_theorem (m : ChoiceMap) :
    resolveReviewStatus m Val.na = .ok (lookupChoice m (some (.int 1))) ∧
    (∀ n : Int, lookupChoice m (some (.int n)) = none →
      resolveReviewStatus m (.int n) = .ok none) ∧
    (∀ s : String, parseInt s = none →
      exceptOk (resolveReviewStatus m (.str s)) = false) := by
  refine ⟨rfl, ?_, ?_⟩
  · intro n h
    simp [resolveReviewStatus, fillna1, Val.toIntE, h, bind, Except.bind, pure, Except.pure]
  · intro s h
    simp [resolveReviewStatus, fillna1, Val.toIntE, h, bind, Except.bind, pure, Except.pure,
      exceptOk]

/-- Claim C4 — witness for the amended theorem at the demo lookup. -/
theorem c4_witness :
    resolveReviewStatus demoM.review_status (.int 5) = .ok none ∧
    exceptOk (resolveReviewStatus demoM.review_status (.str "abc")) = false :=
  ⟨(c4_theorem demoM.review_status).2.1 5 (by decide),
   (c4_theorem demoM.review_status).2.2 "abc" (by decide)⟩

theorem cacheLookup_setCache (acc : List (String × Val × Val)) (q k : String) (v : Val × Val) :
    cacheLookup (setCache acc q v) k = if q = k then some v else cacheLookup acc k := by
  induction acc with
  | nil =>
    by_cases h : q = k
    · have hb : (q == k) = true := by simpa using h
      simp [setCache, cacheLookup, List.find?, hb, h]
    · have hb : (q == k) = false := by simpa using h
      simp [setCache, cacheLookup, List.find?, hb, h]
  | cons p rest ih =>
    by_cases hp : p.1 = q
    · subst hp
      simp only [setCache, beq_self_eq_true, if_true]
      by_cases h : p.1 = k
      · have hb : (p.1 == k) = true := by simpa using h
        simp [cacheLookup, List.find?, hb, h]
      · have hb : (p.1 == k) = false := by simpa using h
        simp [cacheLookup, List.find?, hb, h]
    · have hpb : (p.1 == q) = false := by simpa using hp
      simp only [setCache, hpb, Bool.false_eq_true, if_false]
      by_cases h : p.1 = k
      · subst h
        have hq : ¬ q = p.1 := fun hc => hp hc.symm
        have hb : (p.1 == p.1) = true := by simp
        simp [cacheLookup, List.find?, hb, hq]
      · have hb : (p.1 == k) = false := by simpa using h
        simp only [cacheLookup, List.find?, hb] at ih ⊢
        exact ih

theorem cacheLookup_buildCache_aux (snap : List SnapRow) (k : String) :
    ∀ acc, (cacheLookup
        (snap.foldl (fun acc row =>
          if row.latitude.notna then
            setCache acc (strVal row.record_id) (row.latitude, row.longitude)
          else acc) acc) k).isSome =
      ((cacheLookup acc k).isSome ||
        snap.any (fun row => (strVal row.record_id == k) && row.latitude.notna)) := by
  induction snap with
  | nil => intro acc; simp
  | cons row rest ih =>
    intro acc
    simp only [List.foldl_cons, List.any_cons]
    by_cases hlat : row.latitude.notna = true
    · rw [if_pos hlat, ih, cacheLookup_setCache]
      by_cases hk : strVal row.record_id = k
      · have hkb : (strVal row.record_id == k) = true := by simpa using hk
        simp [hk, hkb, hlat]
      · have hkb : (strVal row.record_id == k) = false := by simpa using hk
        simp [hk, hkb, hlat]
    · rw [if_neg hlat, ih]
      simp only [Bool.not_eq_true] at hlat
      simp [hlat]

theorem cacheLookup_buildCache (snap : List SnapRow) (k : String) :
    (cacheLookup (buildCache snap) k).isSome =
      snap.any (fun row => (strVal row.record_id == k) && row.latitude.notna) := by
  have h := cacheLookup_buildCache_aux snap k []
  simpa [buildCache, cacheLookup, List.find?] using h

/-- Claim C1 (amended): with credentials present, the geocoder is called
for a site iff the snapshot-seeded cache has no entry for its
`record_id` *and* its `review_status` is `Accepted` — but cache
membership requires only a non-missing **latitude** in the prior
snapshot, not a non-missing coordinate pair; a cache hit copies the
cached latitude and longitude verbatim (the longitude possibly missing)
and sets `geocoded = true` without calling, regardless of status; a
non-Accepted site with no cache hit is returned unchanged, with no
call. -/
theorem c1_theorem (snap : List SnapRow) (g : String → Option (Val × Val)) (r : SiteRecord) :
    ((geocodeRow (buildCache snap) g r).2.isSome =
      (!(cacheLookup (buildCache snap) (strVal r.record_id)).isSome &&
       (r.review_status == some "Accepted"))) ∧
    ((cacheLookup (buildCache snap) (strVal r.record_id)).isSome =
      snap.any (fun row =>
        (strVal row.record_id == strVal r.record_id) && row.latitude.notna)) ∧
    (∀ la lo, cacheLookup (buildCache snap) (strVal r.record_id) = some (la, lo) →
      (geocodeRow (buildCache snap) g r).1 =
        { r with latitude := la, longitude := lo, geocoded := true } ∧
      (geocodeRow (buildCache snap) g r).2 = none) ∧
    (cacheLookup (buildCache snap) (strVal r.record_id) = none →
      r.review_status ≠ some "Accepted" →
      geocodeRow (buildCache snap) g r = (r, none)) := by
  refine ⟨?_, cacheLookup_buildCache snap (strVal r.record_id), ?_, ?_⟩
  · rcases h : cacheLookup (buildCache snap) (strVal r.record_id) with _ | lalo
    · simp only [geocodeRow, h]
      by_cases hr : r.review_status = some "Accepted"
      · have hrb : (r.review_status == some "Accepted") = true := by simpa using hr
        rcases hg : g (match r.full_address with | some s => s | none => "nan") with _ | c <;>
          simp [hrb, hg, hr]
      · have hrb : (r.review_status == some "Accepted") = false := by simpa using hr
        simp [hrb, bne, hr]
    · simp [geocodeRow, h]
  · intro la lo h
    simp [geocodeRow, h]
  · intro h hr
    have hrb : (r.review_status == some "Accepted") = false := by simpa using hr
    simp [geocodeRow, h, hrb, bne]

/-- Claim C1 — witness for the amended theorem: a cache hit copies the
cached coordinates without a call, and a cache-missing non-Accepted
site is left untouched. -/
theorem c1_witness :
    (geocodeRow (buildCache [⟨Val.int 2, Val.str "10", Val.str "20"⟩]) c1Geo { blankSite with record_id := Val.int 2 }).1 = { blankSite with record_id := Val.int 2, latitude := Val.str "10", longitude := Val.str "20", geocoded := true } ∧
    geocodeRow (buildCache []) c1Geo { blankSite with record_id := Val.int 2, review_status := some "Pending" } = ({ blankSite with record_id := Val.int 2, review_status := some "Pending" }, none) :=
  ⟨((c1_theorem [⟨Val.int 2, Val.str "10", Val.str "20"⟩] c1Geo { blankSite with record_id := Val.int 2 }).2.2.1 (Val.str "10") (Val.str "20") (by decide)).1,
   (c1_theorem [] c1Geo { blankSite with record_id := Val.int 2, review_status := some "Pending" }).2.2.2 (by decide) (by decide)⟩

/-- Claim C1 — counterexample: the prior snapshot row for record `7` has
a latitude but a *missing longitude*, so the cache holds no non-missing
coordinate pair, and the site is `Accepted`; the claim's criterion then
demands a geocoder call, yet the code takes the cache hit and never
calls (and still sets `geocoded = true`). -/
theorem c1_counterexample :
    ¬ (((geocodeRow (buildCache [c1Snap]) c1Geo c1Site).2.isSome = true) ↔
       (specCacheHasCoordPair [c1Snap] c1Site.record_id = false ∧
        c1Site.review_status = some "Accepted")) := by
  decide

theorem exceptOk_cleanRow (cols : List String) (m : Mappings) (now : String) (r : RawRow) :
    exceptOk (cleanRow cols m now r) = rowParses cols m r := by
  unfold cleanRow rowParses
  rcases h1 : (getVd cols r "site_state" .na).toIntE with e1 | sc <;>
    rcases h2 : (getVd cols r "site_zip" .na).toIntE with e2 | zi <;>
      rcases h3 : scheduleOf cols r with e3 | sch <;>
        rcases h4 : resolveReviewStatus m.review_status (getVd cols r "review_status" .na)
            with e4 | rv <;>
          simp [bind, Except.bind, exceptOk, pure, Except.pure]

/-- Claim C7 — counterexample: an unparseable `site_zip` in the second
row makes `clean_data` fail for the *whole batch* (the column-wise
`astype(int)` raises), so the first, perfectly well-formed row is not
emitted either — the error is raised mid-batch, not collected and
attributed to one record. -/
theorem c7_counterexample :
    exceptOk (clean_data demoCols demoM "T0" [demoBaseRow, c7BadRow]) = false ∧
    exceptOk (clean_data demoCols demoM "T0" [demoBaseRow]) = true := by
  refine ⟨by decide, by decide⟩

/-- Claim C7 (amended): a malformed zip or state value aborts
normalization of the entire batch — `clean_data` raises and emits no
records at all; when every row passes the fallible steps (the
`site_state`/`site_zip`/`review_status` integer casts and the
schedule-list alignment), every row is emitted. -/
theorem c7_theorem (cols : List String) (m : Mappings) (now : String) (rows : List RawRow) :
    ((∀ r ∈ rows, rowParses cols m r = true) →
      ∃ recs, clean_data cols m now rows = .ok recs ∧ recs.length = rows.length) ∧
    (∀ r ∈ rows, rowParses cols m r = false →
      exceptOk (clean_data cols m now rows) = false) := by
  induction rows with
  | nil =>
    refine ⟨fun _ => ⟨[], rfl, rfl⟩, ?_⟩
    intro r hr
    simp at hr
  | cons a rest ih =>
    constructor
    · intro hall
      have ha : exceptOk (cleanRow cols m now a) = true := by
        rw [exceptOk_cleanRow]; exact hall a (by simp)
      rcases hca : cleanRow cols m now a with e | s
      · rw [hca] at ha; simp [exceptOk] at ha
      · obtain ⟨recs, hr1, hr2⟩ := ih.1 (fun r hr => hall r (by simp [hr]))
        exact ⟨s :: recs,
          by simp [clean_data, hca, hr1, bind, Except.bind, pure, Except.pure],
          by simp [hr2]⟩
    · intro r hr hbad
      rcases List.mem_cons.mp hr with hra | hrr
      · subst hra
        have ha : exceptOk (cleanRow cols m now r) = false := by
          rw [exceptOk_cleanRow]; exact hbad
        rcases hca : cleanRow cols m now r with e | s
        · simp [clean_data, hca, bind, Except.bind, exceptOk]
        · rw [hca] at ha; simp [exceptOk] at ha
      · have htail := ih.2 r hrr hbad
        rcases hca : cleanRow cols m now a with e | s
        · simp [clean_data, hca, bind, Except.bind, exceptOk]
        · rcases hct : clean_data cols m now rest with e2 | recs
          · simp [clean_data, hca, hct, bind, Except.bind, exceptOk]
          · rw [hct] at htail; simp [exceptOk] at htail

/-- Claim C7 — witness for the amended theorem at the demo rows. -/
theorem c7_witness :
    (∃ recs, clean_data demoCols demoM "T0" [demoBaseRow] = .ok recs ∧
      recs.length = [demoBaseRow].length) ∧
    exceptOk (clean_data demoCols demoM "T0" [demoBaseRow, c7BadRow]) = false :=
  ⟨(c7_theorem demoCols demoM "T0" [demoBaseRow]).1 (by decide),
   (c7_theorem demoCols demoM "T0" [demoBaseRow, c7BadRow]).2 c7BadRow (by decide) (by decide)⟩

theorem geoView_svcUpdStep (a : Agg) (acc : SiteRecord × List String × Bool)
    (p : String × String) : geoView (svcUpdStep a acc p).1 = geoView acc.1 := by
  unfold svcUpdStep
  split
  · split <;> rfl
  · rfl

theorem geoView_svcFold (a : Agg) (l : List (String × String)) :
    ∀ acc : SiteRecord × List String × Bool,
      geoView (l.foldl (svcUpdStep a) acc).1 = geoView acc.1 := by
  induction l with
  | nil => intro acc; rfl
  | cons p rest ih =>
    intro acc
    rw [List.foldl_cons, ih, geoView_svcUpdStep]

theorem geoView_applyHoursUpdate (a : Agg) (s : SiteRecord) :
    geoView (applyHoursUpdate a s).1 = geoView s := by
  unfold applyHoursUpdate
  dsimp only
  split_ifs <;> rfl

theorem geoView_applyServicesUpdate (svcMap : List (String × String)) (a : Agg)
    (s : SiteRecord) : geoView (applyServicesUpdate svcMap a s).1 = geoView s := by
  unfold applyServicesUpdate
  have h := geoView_svcFold a svcMap (s, [], false)
  dsimp only
  split_ifs <;> simpa using h

theorem geoView_applyClosuresUpdate (a : Agg) (s : SiteRecord) :
    geoView (applyClosuresUpdate a s).1 = geoView s := by
  unfold applyClosuresUpdate
  split <;> rfl

theorem geoView_applyUpdatesRow (m : Mappings) (a : Agg) (t : String) (s : SiteRecord) :
    geoView (applyUpdatesRow m a t s) = geoView s := by
  unfold applyUpdatesRow
  dsimp only
  split_ifs <;>
    exact (geoView_applyClosuresUpdate a _).trans
      ((geoView_applyServicesUpdate m.services_offered_update a _).trans
        (geoView_applyHoursUpdate a s))

theorem map_geoView_updateFirst (l : List SiteRecord) (k : Val) (f : SiteRecord → SiteRecord)
    (hf : ∀ s, geoView (f s) = geoView s) :
    (updateFirst l k f).map geoView = l.map geoView := by
  induction l with
  | nil => rfl
  | cons s rest ih =>
    unfold updateFirst
    split
    · simp only [List.map_cons, ih]
      have := hf s
      simp [this]
    · simp [ih]

/-- Claim C5 — counterexample: in `main`, the records handed to the
geocoding step are the `clean_data` output (`mainGeocodeInput`), and on
this input they differ from the reconciled records (`specReconciled`,
the spec's claimed stage order applies the Update Reconciler first) —
so geocoding does *not* operate on reconciled Site Records; `main` runs
geocoding before `apply_updates`. -/
theorem c5_counterexample :
    exceptOk (mainGeocodeInput c5Raw demoM "T0") = true ∧
    mainGeocodeInput c5Raw demoM "T0" ≠ specReconciled c5Raw demoM "T0" 0 := by
  refine ⟨by decide, by decide⟩

/-- Claim C5 (amended): `main` applies the Geocoding Cache Manager
*before* the Update Reconciler; nevertheless reconciliation leaves every
row's `record_id`, `full_address`, `review_status`, coordinates and
`geocoded` flag unchanged, so the geocoding step reads exactly the
values those fields still have after reconciliation. -/
theorem c5_theorem (clean : List SiteRecord) (u : Frame) (m : Mappings) (d : Nat) (t : String) :
    (apply_updates clean u m d t).map geoView = clean.map geoView := by
  unfold apply_updates
  split
  · rfl
  · have main : ∀ (keys : List Val) (acc : List SiteRecord),
        (keys.foldl
          (fun acc k =>
            updateFirst acc k
              (applyUpdatesRow m
                { cols := (ensureUpdateDate u d).cols,
                  rows := (sortRowsByDate (ensureUpdateDate u d).cols
                    (ensureUpdateDate u d).rows).filter
                      (fun r => recordIdOf (ensureUpdateDate u d).cols r == k) }
                t))
          acc).map geoView = acc.map geoView := by
      intro keys
      induction keys with
      | nil => intro acc; rfl
      | cons k ks ih =>
        intro acc
        rw [List.foldl_cons, ih]
        exact map_geoView_updateFirst acc k _ (fun s => geoView_applyUpdatesRow m _ t s)
    exact main _ clean

theorem svcFold_noneSelected (a : Agg) (l : List (String × String))
    (h : ∀ p ∈ l, (a.get p.1 (.int 0) == Val.int 1) = false) :
    ∀ (s : SiteRecord) (labels : List String) (b : Bool),
      l.foldl (svcUpdStep a) (s, labels, b) =
        (l.foldl
          (fun s p =>
            if a.cols.contains p.1 then
              { s with serviceFlags := setServiceFlag s.serviceFlags (cleanField p.2) false }
            else s)
          s, labels, b) := by
  induction l with
  | nil => intro s labels b; rfl
  | cons p rest ih =>
    intro s labels b
    have hp := h p (List.mem_cons_self p rest)
    have hrest : ∀ q ∈ rest, (a.get q.1 (.int 0) == Val.int 1) = false :=
      fun q hq => h q (List.mem_cons_of_mem p hq)
    simp only [List.foldl_cons]
    have hstep : svcUpdStep a (s, labels, b) p =
        ((if a.cols.contains p.1 then
            { s with serviceFlags := setServiceFlag s.serviceFlags (cleanField p.2) false }
          else s), labels, b) := by
      unfold svcUpdStep
      have hp2 : ¬ (a.get p.1 (Val.int 0) = Val.int 1) := by simpa using hp
      by_cases hc : p.1 ∈ a.cols
      · simp [hc, hp2]
      · simp [hc]
    rw [hstep]
    exact ih hrest _ labels b

theorem zeroFold_preserves (a : Agg) (l : List (String × String)) :
    ∀ s : SiteRecord,
      ((l.foldl
        (fun s p =>
          if a.cols.contains p.1 then
            { s with serviceFlags := setServiceFlag s.serviceFlags (cleanField p.2) false }
          else s) s).data_source = s.data_source ∧
       (l.foldl
        (fun s p =>
          if a.cols.contains p.1 then
            { s with serviceFlags := setServiceFlag s.serviceFlags (cleanField p.2) false }
          else s) s).last_updated = s.last_updated ∧
       (l.foldl
        (fun s p =>
          if a.cols.contains p.1 then
            { s with serviceFlags := setServiceFlag s.serviceFlags (cleanField p.2) false }
          else s) s).services_offered = s.services_offered) := by
  induction l with
  | nil => intro s; exact ⟨rfl, rfl, rfl⟩
  | cons p rest ih =>
    intro s
    simp only [List.foldl_cons]
    by_cases hc : a.cols.contains p.1 = true
    · rw [if_pos hc]
      exact ih _
    · rw [if_neg hc]
      exact ih s

/-- Claim C6 — counterexample: the winning override for record `1`
carries *no* field group at all (no schedule marker, no closures marker,
its only mapped service cell is missing), yet reconciliation flips the
site's `has_charging` flag from `true` to `false` — the site does not
keep all its fields — while `data_source` stays `preseason` and
`last_updated` keeps its original value. -/
theorem c6_counterexample :
    (getVd c6Cols c6Row "same_hours_everyday_update" .na = .na ∧
     getVd c6Cols c6Row "other_closures_updates" .na = .na ∧
     getVd c6Cols c6Row "services_offered_update___1" .na = .na) ∧
    flagOf c6Site.serviceFlags "has_charging" = some true ∧
    (apply_updates [c6Site] c6Frame demoM 0 "T1").map
      (fun r => (flagOf r.serviceFlags "has_charging", r.data_source, r.last_updated)) =
      [(some false, "preseason", "T0")] := by
  refine ⟨⟨by decide, by decide, by decide⟩, by decide, by decide⟩

/-- Claim C6 (amended): the schedule and closure groups are applied only
when their presence markers (`same_hours_everyday_update`,
`other_closures_updates`) are non-missing, but the service flags are
*unconditionally* overwritten for every mapped service column of the
updates table; `data_source` and `last_updated` are refreshed only when
a schedule is produced, some service equals `1`, or the closures marker
is present.  In particular, a winning override with no markers and no
service equal to `1` leaves every field unchanged *except* the mapped
service flags, which are all set to `false`, and keeps `data_source`,
`last_updated` and `services_offered` as they were. -/
theorem c6_theorem (m : Mappings) (a : Agg) (t : String) (site : SiteRecord)
    (h1 : a.get "same_hours_everyday_update" .na = .na)
    (h2 : a.get "other_closures_updates" .na = .na)
    (h3 : ∀ p ∈ m.services_offered_update, (a.get p.1 (.int 0) == Val.int 1) = false) :
    applyUpdatesRow m a t site =
      m.services_offered_update.foldl
        (fun s p =>
          if a.cols.contains p.1 then
            { s with serviceFlags := setServiceFlag s.serviceFlags (cleanField p.2) false }
          else s)
        site ∧
    (applyUpdatesRow m a t site).data_source = site.data_source ∧
    (applyUpdatesRow m a t site).last_updated = site.last_updated ∧
    (applyUpdatesRow m a t site).services_offered = site.services_offered := by
  have hhours : applyHoursUpdate a site = (site, false) := by
    unfold applyHoursUpdate
    rw [h1]
    rfl
  have hsvc : applyServicesUpdate m.services_offered_update a site =
      (m.services_offered_update.foldl
        (fun s p =>
          if a.cols.contains p.1 then
            { s with serviceFlags := setServiceFlag s.serviceFlags (cleanField p.2) false }
          else s) site, false) := by
    unfold applyServicesUpdate
    rw [svcFold_noneSelected a m.services_offered_update h3 site [] false]
    rfl
  have hcl : applyClosuresUpdate a
      (m.services_offered_update.foldl
        (fun s p =>
          if a.cols.contains p.1 then
            { s with serviceFlags := setServiceFlag s.serviceFlags (cleanField p.2) false }
          else s) site) =
      ((m.services_offered_update.foldl
        (fun s p =>
          if a.cols.contains p.1 then
            { s with serviceFlags := setServiceFlag s.serviceFlags (cleanField p.2) false }
          else s) site), false) := by
    unfold applyClosuresUpdate
    rw [h2]
    rfl
  have hmain : applyUpdatesRow m a t site =
      m.services_offered_update.foldl
        (fun s p =>
          if a.cols.contains p.1 then
            { s with serviceFlags := setServiceFlag s.serviceFlags (cleanField p.2) false }
          else s) site := by
    unfold applyUpdatesRow
    rw [hhours]
    dsimp only
    rw [hsvc]
    dsimp only
    rw [hcl]
    rfl
  rcases zeroFold_preserves a m.services_offered_update site with ⟨d1, d2, d3⟩
  exact ⟨hmain, by rw [hmain]; exact d1, by rw [hmain]; exact d2, by rw [hmain]; exact d3⟩

/-- Claim C6 — witness for the amended theorem at the concrete group
built from `c6Frame`. -/
theorem c6_witness :
    applyUpdatesRow demoM c6AggW "T1" c6Site =
      demoM.services_offered_update.foldl
        (fun s p =>
          if c6AggW.cols.contains p.1 then
            { s with serviceFlags := setServiceFlag s.serviceFlags (cleanField p.2) false }
          else s)
        c6Site ∧
    (applyUpdatesRow demoM c6AggW "T1" c6Site).data_source = c6Site.data_source ∧
    (applyUpdatesRow demoM c6AggW "T1" c6Site).last_updated = c6Site.last_updated ∧
    (applyUpdatesRow demoM c6AggW "T1" c6Site).services_offered = c6Site.services_offered :=
  c6_theorem demoM c6AggW "T1" c6Site (by decide) (by decide) (by decide)


/-- Claim C8 — counterexample: record `5` normalizes with
`has_charging = true` and `"Charging"` in its `services_offered` list
(the invariant holds there), but reconciliation with an override whose
only service checkbox is `0` zeroes the flag while leaving
`services_offered` untouched — afterwards the flag is `false` yet its
label still appears in the list. -/
theorem c8_counterexample :
    (cleanRow demoCols demoM "T0" c8BaseRow).map
      (fun r => (flagOf r.serviceFlags "has_charging",
                 (strSplit ", " r.services_offered).contains "Charging")) =
      .ok (some true, true) ∧
    (clean_data demoCols demoM "T0" [c8BaseRow]).map (fun cleaned =>
      (apply_updates cleaned c8Frame demoM 0 "T1").map
        (fun r => (flagOf r.serviceFlags "has_charging",
                   (strSplit ", " r.services_offered).contains "Charging"))) =
      .ok [(some false, true)] := by
  refine ⟨by decide, by decide⟩
theorem flagOf_setServiceFlag (flags : List (String × Bool)) (q k : String) (b : Bool) :
    flagOf (setServiceFlag flags q b) k = if q = k then some b else flagOf flags k := by
  induction flags with
  | nil =>
    by_cases h : q = k
    · have hb : (q == k) = true := by simpa using h
      simp [setServiceFlag, flagOf, List.find?, hb, h]
    · have hb : (q == k) = false := by simpa using h
      simp [setServiceFlag, flagOf, List.find?, hb, h]
  | cons p rest ih =>
    by_cases hp : p.1 = q
    · subst hp
      simp only [setServiceFlag, beq_self_eq_true, if_true]
      by_cases h : p.1 = k
      · have hb : (p.1 == k) = true := by simpa using h
        simp [flagOf, List.find?, hb, h]
      · have hb : (p.1 == k) = false := by simpa using h
        simp [flagOf, List.find?, hb, h]
    · have hpb : (p.1 == q) = false := by simpa using hp
      simp only [setServiceFlag, hpb, Bool.false_eq_true, if_false]
      by_cases h : p.1 = k
      · subst h
        have hq : ¬ q = p.1 := fun hc => hp hc.symm
        have hb : (p.1 == p.1) = true := by simp
        simp [flagOf, List.find?, hb, hq]
      · have hb : (p.1 == k) = false := by simpa using h
        simp only [flagOf, List.find?, hb] at ih ⊢
        exact ih

theorem svcCleanFold_labels (cols : List String) (r : RawRow) (l : List (String × String)) :
    ∀ (flags0 : List (String × Bool)) (labels0 : List String),
      (l.foldl
        (fun acc p =>
          if cols.contains p.1 then
            let v := getVd cols r p.1 (.int 0)
            (setServiceFlag acc.1 (cleanField p.2) v.truthy,
             if v == .int 1 then acc.2 ++ [p.2] else acc.2)
          else acc)
        (flags0, labels0)).2 = labels0 ++ svcSelected cols l r := by
  induction l with
  | nil => intro flags0 labels0; simp [svcSelected]
  | cons p rest ih =>
    intro flags0 labels0
    simp only [List.foldl_cons]
    by_cases hc : cols.contains p.1 = true
    · have hcm : p.1 ∈ cols := by simpa using hc
      rw [if_pos hc]
      by_cases hv : (getVd cols r p.1 (.int 0) == Val.int 1) = true
      · simp only [hv, if_true]
        rw [ih]
        simp [svcSelected, List.filter_cons, hcm, hv]
      · simp only [Bool.not_eq_true] at hv
        simp only [hv, Bool.false_eq_true, if_false]
        rw [ih]
        simp [svcSelected, List.filter_cons, hcm, hv]
    · have hcm : p.1 ∉ cols := by simpa using hc
      rw [if_neg hc]
      rw [ih]
      simp [svcSelected, List.filter_cons, hcm]

theorem svcCleanFold_untouched (cols : List String) (r : RawRow) (l : List (String × String))
    (k : String)
    (h : ∀ q ∈ l, cols.contains q.1 = false ∨ (cleanField q.2 == k) = false) :
    ∀ (flags0 : List (String × Bool)) (labels0 : List String),
      flagOf (l.foldl
        (fun acc p =>
          if cols.contains p.1 then
            let v := getVd cols r p.1 (.int 0)
            (setServiceFlag acc.1 (cleanField p.2) v.truthy,
             if v == .int 1 then acc.2 ++ [p.2] else acc.2)
          else acc)
        (flags0, labels0)).1 k = flagOf flags0 k := by
  induction l with
  | nil => intro flags0 labels0; rfl
  | cons p rest ih =>
    intro flags0 labels0
    have hrest : ∀ q ∈ rest, cols.contains q.1 = false ∨ (cleanField q.2 == k) = false :=
      fun q hq => h q (List.mem_cons_of_mem p hq)
    simp only [List.foldl_cons]
    rcases h p (List.mem_cons_self p rest) with hp | hp
    · rw [if_neg (by simpa using hp)]
      exact ih hrest flags0 labels0
    · by_cases hc : cols.contains p.1 = true
      · rw [if_pos hc]
        by_cases hv : (getVd cols r p.1 (.int 0) == Val.int 1) = true <;>
          [rw [if_pos hv]; rw [if_neg (by simpa using hv)]] <;>
          · rw [ih hrest]
            rw [flagOf_setServiceFlag]
            have hk : ¬ (cleanField p.2 = k) := by simpa using hp
            simp [hk]
      · rw [if_neg hc]
        exact ih hrest flags0 labels0

theorem svcCleanFold_target (cols : List String) (r : RawRow) (l : List (String × String))
    (p : String × String)
    (hdist : l.Pairwise (fun a b => cleanField a.2 ≠ cleanField b.2))
    (hmem : p ∈ l) (hc : cols.contains p.1 = true) :
    ∀ (flags0 : List (String × Bool)) (labels0 : List String),
      flagOf (l.foldl
        (fun acc p =>
          if cols.contains p.1 then
            let v := getVd cols r p.1 (.int 0)
            (setServiceFlag acc.1 (cleanField p.2) v.truthy,
             if v == .int 1 then acc.2 ++ [p.2] else acc.2)
          else acc)
        (flags0, labels0)).1 (cleanField p.2) =
      some (getVd cols r p.1 (.int 0)).truthy := by
  induction l with
  | nil => cases hmem
  | cons q rest ih =>
    intro flags0 labels0
    rcases List.pairwise_cons.mp hdist with ⟨hq, hrest⟩
    simp only [List.foldl_cons]
    rcases List.mem_cons.mp hmem with hpq | hpr
    · subst hpq
      rw [if_pos hc]
      have hnone : ∀ q2 ∈ rest, cols.contains q2.1 = false ∨
          (cleanField q2.2 == cleanField p.2) = false := by
        intro q2 hq2
        right
        have := hq q2 hq2
        simpa using fun hcf => this hcf.symm
      by_cases hv : (getVd cols r p.1 (.int 0) == Val.int 1) = true <;>
        [rw [if_pos hv]; rw [if_neg (by simpa using hv)]] <;>
        · rw [svcCleanFold_untouched cols r rest (cleanField p.2) hnone]
          rw [flagOf_setServiceFlag]
          simp
    · by_cases hcq : cols.contains q.1 = true
      · rw [if_pos hcq]
        by_cases hv : (getVd cols r q.1 (.int 0) == Val.int 1) = true <;>
          [rw [if_pos hv]; rw [if_neg (by simpa using hv)]] <;>
          exact ih hrest hpr _ _
      · rw [if_neg hcq]
        exact ih hrest hpr flags0 labels0

theorem cleanRow_ok_services (cols : List String) (m : Mappings) (now : String)
    (r : RawRow) (rec : SiteRecord) (hok : cleanRow cols m now r = .ok rec) :
    rec.serviceFlags = (servicesOf cols m.services_offered r).1 ∧
    rec.services_offered = (servicesOf cols m.services_offered r).2 := by
  unfold cleanRow at hok
  rcases h1 : (getVd cols r "site_state" .na).toIntE with e1 | sc <;> rw [h1] at hok
  · exact Except.noConfusion hok
  rcases h2 : (getVd cols r "site_zip" .na).toIntE with e2 | zi <;> rw [h2] at hok
  · exact Except.noConfusion hok
  rcases h3 : scheduleOf cols r with e3 | sch <;> rw [h3] at hok
  · exact Except.noConfusion hok
  rcases h4 : resolveReviewStatus m.review_status (getVd cols r "review_status" .na)
      with e4 | rv <;> rw [h4] at hok
  · exact Except.noConfusion hok
  injection hok with h
  subst h
  exact ⟨rfl, rfl⟩

/-- Claim C8 (amended): *after normalization alone* the invariant holds —
given checkbox cells in {0, 1} and pairwise-distinct flag names, a
`has_*` flag is `true` iff its label is among the selected service
labels, whose comma-join is exactly `services_offered` (and `cleanRow`'s
flag and list fields are precisely `servicesOf`'s two components).
Reconciliation does not preserve the invariant (see the
counterexample). -/
theorem c8_theorem (cols : List String) (svcMap : List (String × String)) (r : RawRow)
    (hdist : svcMap.Pairwise (fun a b => cleanField a.2 ≠ cleanField b.2))
    (hvals : ∀ p ∈ svcMap, cols.contains p.1 = true →
      getVd cols r p.1 (.int 0) = .int 0 ∨ getVd cols r p.1 (.int 0) = .int 1) :
    (servicesOf cols svcMap r).2 = String.intercalate ", " (svcSelected cols svcMap r) ∧
    (∀ p ∈ svcMap, cols.contains p.1 = true →
      (flagOf (servicesOf cols svcMap r).1 (cleanField p.2) = some true ↔
        p.2 ∈ svcSelected cols svcMap r)) ∧
    (∀ (m : Mappings) (now : String) (rec : SiteRecord), m.services_offered = svcMap →
      cleanRow cols m now r = .ok rec →
      rec.serviceFlags = (servicesOf cols svcMap r).1 ∧
      rec.services_offered = (servicesOf cols svcMap r).2) := by
  refine ⟨?_, ?_, ?_⟩
  · unfold servicesOf
    dsimp only
    rw [svcCleanFold_labels cols r svcMap [] []]
    simp
  · intro p hp hc
    have hflag : flagOf (servicesOf cols svcMap r).1 (cleanField p.2) =
        some (getVd cols r p.1 (.int 0)).truthy := by
      unfold servicesOf
      exact svcCleanFold_target cols r svcMap p hdist hp hc [] []
    rw [hflag]
    rcases hvals p hp hc with h0 | h1
    · rw [h0]
      constructor
      · intro hcontra
        simp [Val.truthy] at hcontra
      · intro hmem
        exfalso
        obtain ⟨q, hqf, hq2⟩ := List.mem_map.mp hmem
        have hqmem := List.mem_filter.mp hqf
        have hsame : cleanField q.2 = cleanField p.2 := by rw [hq2]
        have hqp : q = p := by
          by_contra hne
          exact List.Pairwise.forall (fun a b hab => fun hba => hab hba.symm) hdist
            hqmem.1 hp hne hsame
        subst hqp
        have := hqmem.2
        rw [h0] at this
        simp at this
    · rw [h1]
      have hcm : p.1 ∈ cols := by simpa using hc
      have hsel : p ∈ svcMap.filter
          (fun p => cols.contains p.1 && (getVd cols r p.1 (.int 0) == Val.int 1)) := by
        refine List.mem_filter.mpr ⟨hp, ?_⟩
        rw [h1]
        simp [hcm]
      constructor
      · intro _
        exact List.mem_map.mpr ⟨p, hsel, rfl⟩
      · intro _
        simp [Val.truthy]
  · intro m now rec hm hok
    rw [← hm]
    exact cleanRow_ok_services cols m now r rec hok

/-- Claim C8 — witness for the amended theorem at the demo row. -/
theorem c8_witness :
    flagOf (servicesOf demoCols demoM.services_offered c8BaseRow).1 (cleanField "Charging") =
        some true ↔
      "Charging" ∈ svcSelected demoCols demoM.services_offered c8BaseRow :=
  (c8_theorem demoCols demoM.services_offered c8BaseRow (by simp [demoM]) (by decide)).2.1
    ("services_offered___1", "Charging") (by decide) (by decide)

theorem dateLe_refl (a : Option Nat) : dateLe a a = true := by
  cases a <;> simp [dateLe]

theorem dateLe_trans {a b c : Option Nat} (h1 : dateLe a b = true) (h2 : dateLe b c = true) :
    dateLe a c = true := by
  cases a <;> cases b <;> cases c <;> simp [dateLe] at h1 h2 ⊢ <;> omega

theorem dateLe_total (a b : Option Nat) : dateLe a b = true ∨ dateLe b a = true := by
  cases a <;> cases b <;> simp [dateLe] <;> omega

theorem exists_append_of_getLast {α : Type} :
    ∀ (l : List α) (r : α), l.getLast? = some r → ∃ init, l = init ++ [r] := by
  intro l
  induction l with
  | nil => intro r h; cases h
  | cons a t ih =>
    intro r h
    cases t with
    | nil =>
      simp [List.getLast?] at h
      subst h
      exact ⟨[], rfl⟩
    | cons b t2 =>
      rw [List.getLast?_cons_cons] at h
      obtain ⟨init, hi⟩ := ih r h
      exact ⟨a :: init, by rw [hi, List.cons_append]⟩

theorem lastNonNa_append (vs : List Val) (v : Val) :
    lastNonNa (vs ++ [v]) = if v ≠ .na then v else lastNonNa vs := by
  unfold lastNonNa
  rw [List.filter_append]
  by_cases h : v = .na
  · subst h
    simp [List.filter]
  · have hb : (v != Val.na) = true := by simpa using h
    simp only [List.filter, hb, if_pos]
    rw [List.getLast?_concat]
    simp [h]

theorem lastNonNa_map_getLast {l : List RawRow} {g : RawRow → Val} {r : RawRow}
    (h : l.getLast? = some r) (hna : g r ≠ .na) : lastNonNa (l.map g) = g r := by
  obtain ⟨init, rfl⟩ := exists_append_of_getLast l r h
  rw [List.map_append]
  simp only [List.map]
  rw [lastNonNa_append]
  simp [hna]

theorem chain'_insertRow (cols : List String) (x : RawRow) :
    ∀ l : List RawRow,
      List.Chain' (fun a b => dateLe (dateKey cols a) (dateKey cols b) = true) l →
      List.Chain' (fun a b => dateLe (dateKey cols a) (dateKey cols b) = true)
        (insertRowByDate cols x l) := by
  intro l
  induction l with
  | nil => intro _; simp [insertRowByDate]
  | cons y ys ih =>
    intro hch
    unfold insertRowByDate
    by_cases hle : dateLe (dateKey cols x) (dateKey cols y) = true
    · rw [if_pos hle]
      exact List.chain'_cons.mpr ⟨hle, hch⟩
    · rw [if_neg hle]
      have hys := (List.chain'_cons'.mp hch).2
      have hyx : dateLe (dateKey cols y) (dateKey cols x) = true := by
        rcases dateLe_total (dateKey cols x) (dateKey cols y) with h | h
        · exact absurd h hle
        · exact h
      refine List.chain'_cons'.mpr ⟨?_, ih hys⟩
      intro b hb
      cases ys with
      | nil =>
        simp [insertRowByDate] at hb
        subst hb
        exact hyx
      | cons z zs =>
        unfold insertRowByDate at hb
        by_cases hlez : dateLe (dateKey cols x) (dateKey cols z) = true
        · rw [if_pos hlez] at hb
          simp at hb
          subst hb
          exact hyx
        · rw [if_neg hlez] at hb
          simp at hb
          subst hb
          exact (List.chain'_cons.mp hch).1

theorem chain'_sortRows (cols : List String) (l : List RawRow) :
    List.Chain' (fun a b => dateLe (dateKey cols a) (dateKey cols b) = true)
      (sortRowsByDate cols l) := by
  induction l with
  | nil => simp [sortRowsByDate]
  | cons r rs ih => exact chain'_insertRow cols r _ ih

theorem mem_insertRow (cols : List String) (x q : RawRow) :
    ∀ l : List RawRow, q ∈ insertRowByDate cols x l ↔ q = x ∨ q ∈ l := by
  intro l
  induction l with
  | nil => simp [insertRowByDate]
  | cons y ys ih =>
    unfold insertRowByDate
    by_cases hle : dateLe (dateKey cols x) (dateKey cols y) = true
    · rw [if_pos hle]
      simp
    · rw [if_neg hle]
      simp only [List.mem_cons, ih]
      constructor
      · rintro (h | h | h)
        · exact Or.inr (Or.inl h)
        · exact Or.inl h
        · exact Or.inr (Or.inr h)
      · rintro (h | h | h)
        · exact Or.inr (Or.inl h)
        · exact Or.inl h
        · exact Or.inr (Or.inr h)

theorem mem_sortRows (cols : List String) (q : RawRow) :
    ∀ l : List RawRow, q ∈ sortRowsByDate cols l ↔ q ∈ l := by
  intro l
  induction l with
  | nil => simp [sortRowsByDate]
  | cons r rs ih =>
    unfold sortRowsByDate
    rw [mem_insertRow cols r q, ih]
    simp

theorem chain'_le_getLast (cols : List String) :
    ∀ l : List RawRow,
      List.Chain' (fun a b => dateLe (dateKey cols a) (dateKey cols b) = true) l →
      ∀ q ∈ l, ∀ r, l.getLast? = some r →
        dateLe (dateKey cols q) (dateKey cols r) = true := by
  intro l
  induction l with
  | nil => intro _ q hq; cases hq
  | cons a t ih =>
    intro hch q hq r hr
    cases t with
    | nil =>
      simp [List.getLast?] at hr
      rcases List.mem_cons.mp hq with rfl | h
      · rw [hr]; exact dateLe_refl _
      · cases h
    | cons b t2 =>
      rw [List.getLast?_cons_cons] at hr
      rcases List.mem_cons.mp hq with rfl | hqt
      · have hab := (List.chain'_cons.mp hch).1
        have hbr := ih (List.chain'_cons.mp hch).2 b (List.mem_cons_self b t2) r hr
        exact dateLe_trans hab hbr
      · exact ih (List.chain'_cons.mp hch).2 q hqt r hr

/-- Claim C3 (amended): within a `record_id` group the override applied
is aggregated per *column*: with the group's rows sorted by
`update_date` ascending (missing dates last), each column independently
takes its last non-missing value, so a non-missing field of an earlier
override survives whenever the latest row leaves that field missing.
When the final row of the sorted group has a non-missing value in a
column, that value is the one applied for that column, and that final
row's `update_date` is maximal in the group; in particular only the
maximal row's fields apply when it has no missing fields. -/
theorem c3_theorem (cols : List String) (rows : List RawRow) (c : String) (r : RawRow)
    (hlast : (sortRowsByDate cols rows).getLast? = some r)
    (hcol : cols.contains c = true) (hcr : c ≠ "record_id")
    (hna : getVd cols r c .na ≠ .na) :
    Agg.get { cols := cols, rows := sortRowsByDate cols rows } c .na = getVd cols r c .na ∧
    ∀ q ∈ rows, dateLe (dateKey cols q) (dateKey cols r) = true := by
  constructor
  · have hcm : c ∈ cols := by simpa using hcol
    unfold Agg.get
    rw [if_pos (by simp [hcm, hcr])]
    exact lastNonNa_map_getLast hlast hna
  · intro q hq
    exact chain'_le_getLast cols _ (chain'_sortRows cols rows) q
      ((mem_sortRows cols q rows).mpr hq) r hlast

/-- Claim C3 — witness for the amended theorem on the parsed, sorted
`c3Frame` group. -/
theorem c3_witness :
    Agg.get { cols := (ensureUpdateDate c3Frame 0).cols,
              rows := sortRowsByDate (ensureUpdateDate c3Frame 0).cols
                (ensureUpdateDate c3Frame 0).rows }
      "same_hours_everyday_update" .na =
      getVd (ensureUpdateDate c3Frame 0).cols
        (setCell c3RowB "update_date" (.date 20260510)) "same_hours_everyday_update" .na ∧
    ∀ q ∈ (ensureUpdateDate c3Frame 0).rows,
      dateLe (dateKey (ensureUpdateDate c3Frame 0).cols q)
        (dateKey (ensureUpdateDate c3Frame 0).cols
          (setCell c3RowB "update_date" (.date 20260510))) = true :=
  c3_theorem (ensureUpdateDate c3Frame 0).cols (ensureUpdateDate c3Frame 0).rows
    "same_hours_everyday_update" (setCell c3RowB "update_date" (.date 20260510))
    (by decide) (by decide) (by decide) (by decide)

/-- Claim C3 — counterexample: the winning override (maximum
`update_date`) for record `1` is `c3RowB`, whose
`standard_start_time_update` is missing; yet after reconciliation the
record's `opening_time` is `"09:00"` — a field of the *discarded*
earlier override `c3RowA` — and dropping the non-winning row changes the
output, so it is not the case that only the winning row's fields are
reflected. -/
theorem c3_counterexample :
    specWinningOverride c3Cols [c3RowA, c3RowB] = some c3RowB ∧
    getVd c3Cols c3RowB "standard_start_time_update" .na = .na ∧
    (apply_updates [c3Site] c3Frame emptyMappings 0 "T1").map (fun r => r.opening_time) =
      ["09:00"] ∧
    apply_updates [c3Site] c3Frame emptyMappings 0 "T1" ≠
      apply_updates [c3Site] c3FrameB emptyMappings 0 "T1" := by
  refine ⟨by decide, by decide, by decide, by decide⟩

theorem assocFind_setCell_ne (r : RawRow) (k : String) (v : Val) (c : String) (h : c ≠ k) :
    assocFind (setCell r k v) c = assocFind r c := by
  induction r with
  | nil =>
    have hb : (k == c) = false := by simpa using fun hc => h hc.symm
    simp [setCell, assocFind, List.find?, hb]
  | cons p rest ih =>
    by_cases hp : p.1 = k
    · subst hp
      have hb : (p.1 == c) = false := by simpa using fun hc => h hc.symm
      simp only [setCell, beq_self_eq_true, if_true]
      simp [assocFind, List.find?, hb]
    · have hpb : (p.1 == k) = false := by simpa using hp
      simp only [setCell, hpb, Bool.false_eq_true, if_false]
      by_cases hc : p.1 = c
      · subst hc
        simp [assocFind, List.find?]
      · have hcb : (p.1 == c) = false := by simpa using hc
        simp only [assocFind, List.find?, hcb] at ih ⊢
        exact ih

theorem assocFind_setCell_eq (r : RawRow) (k : String) (v : Val) :
    assocFind (setCell r k v) k = some v := by
  induction r with
  | nil => simp [setCell, assocFind, List.find?]
  | cons p rest ih =>
    by_cases hp : p.1 = k
    · subst hp
      simp [setCell, assocFind, List.find?]
    · have hpb : (p.1 == k) = false := by simpa using hp
      simp only [setCell, hpb, Bool.false_eq_true, if_false]
      simp only [assocFind, List.find?, hpb] at ih ⊢
      exact ih

theorem getVd_setCell_ne (cols : List String) (r : RawRow) (k : String) (v : Val)
    (c : String) (d : Val) (h : c ≠ k) :
    getVd cols (setCell r k v) c d = getVd cols r c d := by
  unfold getVd
  rw [assocFind_setCell_ne r k v c h]

theorem getVd_setCell_eq (cols : List String) (r : RawRow) (k : String) (v : Val) (d : Val)
    (h : cols.contains k = true) :
    getVd cols (setCell r k v) k d = v := by
  unfold getVd
  rw [if_pos h, assocFind_setCell_eq]
  rfl

theorem sortRows_const (cols : List String) (dv : Nat) :
    ∀ l : List RawRow, (∀ r ∈ l, dateKey cols r = some dv) → sortRowsByDate cols l = l := by
  intro l
  induction l with
  | nil => intro _; rfl
  | cons r rs ih =>
    intro h
    have hr := h r (List.mem_cons_self r rs)
    have hrs : ∀ q ∈ rs, dateKey cols q = some dv := fun q hq => h q (List.mem_cons_of_mem r hq)
    unfold sortRowsByDate
    rw [ih hrs]
    cases rs with
    | nil => rfl
    | cons y ys =>
      have hy := hrs y (List.mem_cons_self y ys)
      unfold insertRowByDate
      rw [hr, hy]
      simp [dateLe]

theorem lastNonNa_all_date (dv : Nat) :
    ∀ vs : List Val, (∀ v ∈ vs, v = .date dv) → (lastNonNa vs == Val.int 1) = false := by
  intro vs
  induction vs with
  | nil => intro _; rfl
  | cons v rest ih =>
    intro h
    have hv := h v (List.mem_cons_self v rest)
    have hrest : ∀ w ∈ rest, w = .date dv := fun w hw => h w (List.mem_cons_of_mem v hw)
    subst hv
    unfold lastNonNa at ih ⊢
    simp only [List.filter]
    cases hfr : List.filter (fun v => v != Val.na) rest with
    | nil => rfl
    | cons c cs =>
      rw [hfr] at ih
      have hdna : (Val.date dv != Val.na) = true := rfl
      simp only [hdna]
      rw [List.getLast?_cons_cons]
      exact ih hrest

theorem openDaysUpdate_congr (a1 a2 : Agg)
    (hget : ∀ c d, c ≠ "update_date" → a1.get c d = a2.get c d) :
    openDaysUpdate a1 = openDaysUpdate a2 := by
  unfold openDaysUpdate
  apply List.filterMap_congr
  intro p hp
  simp only [dayIdx, List.mem_cons, List.not_mem_nil, or_false] at hp
  rcases hp with rfl | rfl | rfl | rfl | rfl | rfl | rfl <;>
    rw [hget _ _ (by decide)]

theorem perDayUpdate_congr (a1 a2 : Agg)
    (hget : ∀ c d, c ≠ "update_date" → a1.get c d = a2.get c d)
    (od : List String) (day pre : String)
    (h1 : pre ++ "_start_update" ≠ "update_date")
    (h2 : pre ++ "_close_update" ≠ "update_date") :
    perDayUpdate a1 od day pre = perDayUpdate a2 od day pre := by
  unfold perDayUpdate
  rw [hget _ _ h1, hget _ _ h2]

theorem hoursAgg_congr (a1 a2 : Agg)
    (hget : ∀ c d, c ≠ "update_date" → a1.get c d = a2.get c d) :
    applyHoursUpdate a1 = applyHoursUpdate a2 := by
  funext s
  unfold applyHoursUpdate
  dsimp only
  rw [hget "same_hours_everyday_update" .na (by decide),
    openDaysUpdate_congr a1 a2 hget,
    hget "standard_start_time_update" (.str "") (by decide),
    hget "standard_close_time_update" (.str "") (by decide),
    perDayUpdate_congr a1 a2 hget _ "Monday" "mon" (by decide) (by decide),
    perDayUpdate_congr a1 a2 hget _ "Tuesday" "tues" (by decide) (by decide),
    perDayUpdate_congr a1 a2 hget _ "Wednesday" "wed" (by decide) (by decide),
    perDayUpdate_congr a1 a2 hget _ "Thursday" "thurs" (by decide) (by decide),
    perDayUpdate_congr a1 a2 hget _ "Friday" "fri" (by decide) (by decide),
    perDayUpdate_congr a1 a2 hget _ "Saturday" "sat" (by decide) (by decide),
    perDayUpdate_congr a1 a2 hget _ "Sunday" "sun" (by decide) (by decide)]

theorem svcUpdStep_congr (a1 a2 : Agg) (hcols : a1.cols = a2.cols)
    (hget : ∀ c d, c ≠ "update_date" → a1.get c d = a2.get c d)
    (hud : ∀ d, a1.get "update_date" d = a2.get "update_date" d ∨
      ((a1.get "update_date" d == Val.int 1) = false ∧
       (a2.get "update_date" d == Val.int 1) = false)) :
    svcUpdStep a1 = svcUpdStep a2 := by
  funext acc p
  unfold svcUpdStep
  rw [hcols]
  by_cases hpud : p.1 = "update_date"
  · rw [hpud]
    rcases hud (.int 0) with he | ⟨hf1, hf2⟩
    · rw [he]
    · rw [hf1, hf2]
  · rw [hget p.1 (.int 0) hpud]

theorem servicesAgg_congr (svcMap : List (String × String)) (a1 a2 : Agg)
    (hcols : a1.cols = a2.cols)
    (hget : ∀ c d, c ≠ "update_date" → a1.get c d = a2.get c d)
    (hud : ∀ d, a1.get "update_date" d = a2.get "update_date" d ∨
      ((a1.get "update_date" d == Val.int 1) = false ∧
       (a2.get "update_date" d == Val.int 1) = false)) :
    applyServicesUpdate svcMap a1 = applyServicesUpdate svcMap a2 := by
  funext s
  unfold applyServicesUpdate
  rw [svcUpdStep_congr a1 a2 hcols hget hud]

theorem closuresAgg_congr (a1 a2 : Agg)
    (hget : ∀ c d, c ≠ "update_date" → a1.get c d = a2.get c d) :
    applyClosuresUpdate a1 = applyClosuresUpdate a2 := by
  funext s
  unfold applyClosuresUpdate
  rw [hget "other_closures_updates" .na (by decide)]
  have hfm : (List.range 10).filterMap
      (fun i =>
        let v := a1.get ("closure_" ++ toString (i + 1) ++ "_update") .na
        if v.notna then some (strVal v) else none) =
      (List.range 10).filterMap
      (fun i =>
        let v := a2.get ("closure_" ++ toString (i + 1) ++ "_update") .na
        if v.notna then some (strVal v) else none) := by
    apply List.filterMap_congr
    intro i hi
    have hlt : i < 10 := List.mem_range.mp hi
    interval_cases i <;> rw [hget _ _ (by decide)]
  rw [hfm]

theorem rowAgg_congr (m : Mappings) (a1 a2 : Agg) (t : String) (hcols : a1.cols = a2.cols)
    (hget : ∀ c d, c ≠ "update_date" → a1.get c d = a2.get c d)
    (hud : ∀ d, a1.get "update_date" d = a2.get "update_date" d ∨
      ((a1.get "update_date" d == Val.int 1) = false ∧
       (a2.get "update_date" d == Val.int 1) = false)) :
    applyUpdatesRow m a1 t = applyUpdatesRow m a2 t := by
  funext s
  unfold applyUpdatesRow
  rw [hoursAgg_congr a1 a2 hget,
    servicesAgg_congr m.services_offered_update a1 a2 hcols hget hud,
    closuresAgg_congr a1 a2 hget]

theorem hoursLu (a : Agg) (s : SiteRecord) (x : String) :
    applyHoursUpdate a { s with last_updated := x } =
      ({ (applyHoursUpdate a s).1 with last_updated := x }, (applyHoursUpdate a s).2) := by
  unfold applyHoursUpdate
  dsimp only
  split_ifs <;> rfl

theorem svcUpdStepLu (a : Agg) (s : SiteRecord) (labels : List String) (b : Bool)
    (x : String) (p : String × String) :
    svcUpdStep a ({ s with last_updated := x }, labels, b) p =
      ({ (svcUpdStep a (s, labels, b) p).1 with last_updated := x },
       (svcUpdStep a (s, labels, b) p).2) := by
  unfold svcUpdStep
  dsimp only
  split_ifs <;> rfl

theorem svcFoldLu (a : Agg) (x : String) :
    ∀ (l : List (String × String)) (s : SiteRecord) (labels : List String) (b : Bool),
      l.foldl (svcUpdStep a) ({ s with last_updated := x }, labels, b) =
        ({ (l.foldl (svcUpdStep a) (s, labels, b)).1 with last_updated := x },
         (l.foldl (svcUpdStep a) (s, labels, b)).2) := by
  intro l
  induction l with
  | nil => intro s labels b; rfl
  | cons p rest ih =>
    intro s labels b
    simp only [List.foldl_cons]
    rw [svcUpdStepLu]
    exact ih _ _ _

theorem servicesLu (svcMap : List (String × String)) (a : Agg) (s : SiteRecord) (x : String) :
    applyServicesUpdate svcMap a { s with last_updated := x } =
      ({ (applyServicesUpdate svcMap a s).1 with last_updated := x },
       (applyServicesUpdate svcMap a s).2) := by
  unfold applyServicesUpdate
  rw [svcFoldLu]
  dsimp only
  split_ifs <;> rfl

theorem closLu (a : Agg) (s : SiteRecord) (x : String) :
    applyClosuresUpdate a { s with last_updated := x } =
      ({ (applyClosuresUpdate a s).1 with last_updated := x },
       (applyClosuresUpdate a s).2) := by
  unfold applyClosuresUpdate
  dsimp only
  split_ifs <;> rfl

theorem rowLu (m : Mappings) (a : Agg) (t1 t2 : String) (s : SiteRecord) (x : String) :
    eraseTs (applyUpdatesRow m a t1 { s with last_updated := x }) =
      eraseTs (applyUpdatesRow m a t2 s) := by
  unfold applyUpdatesRow
  rw [hoursLu]
  dsimp only
  rw [servicesLu]
  dsimp only
  rw [closLu]
  dsimp only
  split_ifs <;> rfl

theorem eraseTs_eq_imp (s1 s2 : SiteRecord) (h : eraseTs s1 = eraseTs s2) :
    s1 = { s2 with last_updated := s1.last_updated } := by
  cases s1; cases s2
  simp only [eraseTs, SiteRecord.mk.injEq] at h ⊢
  exact h

theorem rowSite_congr (m : Mappings) (a : Agg) (t1 t2 : String) (s1 s2 : SiteRecord)
    (hs : eraseTs s1 = eraseTs s2) :
    eraseTs (applyUpdatesRow m a t1 s1) = eraseTs (applyUpdatesRow m a t2 s2) := by
  have h1 : s1 = { s2 with last_updated := s1.last_updated } := eraseTs_eq_imp s1 s2 hs
  rw [h1]
  exact rowLu m a t1 t2 s2 s1.last_updated

theorem row_congr (m : Mappings) (a1 a2 : Agg) (t1 t2 : String) (s1 s2 : SiteRecord)
    (hs : eraseTs s1 = eraseTs s2) (hcols : a1.cols = a2.cols)
    (hget : ∀ c d, c ≠ "update_date" → a1.get c d = a2.get c d)
    (hud : ∀ d, a1.get "update_date" d = a2.get "update_date" d ∨
      ((a1.get "update_date" d == Val.int 1) = false ∧
       (a2.get "update_date" d == Val.int 1) = false)) :
    eraseTs (applyUpdatesRow m a1 t1 s1) = eraseTs (applyUpdatesRow m a2 t2 s2) := by
  rw [rowAgg_congr m a1 a2 t1 hcols hget hud]
  exact rowSite_congr m a2 t1 t2 s1 s2 hs

theorem updateFirst_congr :
    ∀ (l1 l2 : List SiteRecord) (k : Val) (f1 f2 : SiteRecord → SiteRecord),
      l1.map eraseTs = l2.map eraseTs →
      (∀ s1 s2, eraseTs s1 = eraseTs s2 → eraseTs (f1 s1) = eraseTs (f2 s2)) →
      (updateFirst l1 k f1).map eraseTs = (updateFirst l2 k f2).map eraseTs := by
  intro l1
  induction l1 with
  | nil =>
    intro l2 k f1 f2 hl hf
    have h2 : l2 = [] := by simpa using hl.symm
    subst h2
    rfl
  | cons s1 t1 ih =>
    intro l2 k f1 f2 hl hf
    cases l2 with
    | nil => simp at hl
    | cons s2 t2 =>
      simp only [List.map_cons, List.cons.injEq] at hl
      obtain ⟨hhead, htail⟩ := hl
      have hid0 := congrArg SiteRecord.record_id hhead
      have hid : s1.record_id = s2.record_id := hid0
      unfold updateFirst
      rw [hid]
      by_cases hk : (s2.record_id == k) = true
      · rw [if_pos hk, if_pos hk]
        simp only [List.map_cons, List.cons.injEq]
        exact ⟨hf s1 s2 hhead, htail⟩
      · rw [if_neg hk, if_neg hk]
        simp only [List.map_cons, List.cons.injEq]
        exact ⟨hhead, ih t2 k f1 f2 htail hf⟩

theorem foldl_eraseTs_congr (f1 f2 : List SiteRecord → Val → List SiteRecord)
    (hstep : ∀ acc1 acc2 k, acc1.map eraseTs = acc2.map eraseTs →
      (f1 acc1 k).map eraseTs = (f2 acc2 k).map eraseTs) :
    ∀ (keys : List Val) (acc1 acc2 : List SiteRecord),
      acc1.map eraseTs = acc2.map eraseTs →
      (keys.foldl f1 acc1).map eraseTs = (keys.foldl f2 acc2).map eraseTs := by
  intro keys
  induction keys with
  | nil => intro acc1 acc2 h; exact h
  | cons k ks ih =>
    intro acc1 acc2 h
    exact ih _ _ (hstep acc1 acc2 k h)

theorem applyUpdates_fold_congr (m : Mappings) (cols2 : List String)
    (sorted1 sorted2 : List RawRow) (t1 t2 : String)
    (hgr : ∀ (k : Val) (c : String) (d : Val), c ≠ "update_date" →
      Agg.get { cols := cols2, rows := sorted1.filter (fun r => recordIdOf cols2 r == k) } c d =
      Agg.get { cols := cols2, rows := sorted2.filter (fun r => recordIdOf cols2 r == k) } c d)
    (hudr : ∀ (k : Val) (d : Val),
      Agg.get { cols := cols2, rows := sorted1.filter (fun r => recordIdOf cols2 r == k) }
          "update_date" d =
        Agg.get { cols := cols2, rows := sorted2.filter (fun r => recordIdOf cols2 r == k) }
          "update_date" d ∨
      ((Agg.get { cols := cols2, rows := sorted1.filter (fun r => recordIdOf cols2 r == k) }
          "update_date" d == Val.int 1) = false ∧
       (Agg.get { cols := cols2, rows := sorted2.filter (fun r => recordIdOf cols2 r == k) }
          "update_date" d == Val.int 1) = false))
    (keys : List Val) (clean : List SiteRecord) :
    (keys.foldl
      (fun acc k =>
        updateFirst acc k
          (applyUpdatesRow m
            { cols := cols2, rows := sorted1.filter (fun r => recordIdOf cols2 r == k) } t1))
      clean).map eraseTs =
    (keys.foldl
      (fun acc k =>
        updateFirst acc k
          (applyUpdatesRow m
            { cols := cols2, rows := sorted2.filter (fun r => recordIdOf cols2 r == k) } t2))
      clean).map eraseTs := by
  apply foldl_eraseTs_congr
  · intro acc1 acc2 k h
    apply updateFirst_congr acc1 acc2 k _ _ h
    intro s1 s2 hs
    exact row_congr m _ _ t1 t2 s1 s2 hs rfl (fun c d hc => hgr k c d hc) (fun d => hudr k d)
  · rfl

/-- Claim C2: update reconciliation is deterministic — running
`apply_updates` twice on the same base records, override frame and
mappings yields identical rows in every field except `last_updated`,
whatever run times (`datetime.now()` as the default `update_date` and as
the written timestamp) the two runs observe.  The run-time parameters
are the only source of nondeterminism in the embedded reconciler, so
two runs on identical inputs differ at most in `last_updated`. -/
theorem c2_theorem (clean : List SiteRecord) (u : Frame) (m : Mappings)
    (d1 d2 : Nat) (t1 t2 : String) :
    (apply_updates clean u m d1 t1).map eraseTs =
      (apply_updates clean u m d2 t2).map eraseTs := by
  unfold apply_updates
  by_cases hemp : u.rows.isEmpty = true
  · rw [if_pos hemp, if_pos hemp]
  · rw [if_neg hemp, if_neg hemp]
    dsimp only
    by_cases hcont : u.cols.contains "update_date" = true
    · have hE : ensureUpdateDate u d1 = ensureUpdateDate u d2 := by
        unfold ensureUpdateDate
        rw [if_pos hcont, if_pos hcont]
      rw [hE]
      exact applyUpdates_fold_congr m _ _ _ t1 t2 (fun k c d _ => rfl)
        (fun k d => Or.inl rfl) _ clean
    · have hEi : ∀ dv : Nat, ensureUpdateDate u dv =
          { cols := u.cols ++ ["update_date"],
            rows := u.rows.map (fun r => setCell r "update_date" (.date dv)) } := by
        intro dv
        unfold ensureUpdateDate
        rw [if_neg hcont]
      rw [hEi d1, hEi d2]
      dsimp only
      have hcontud : (u.cols ++ ["update_date"]).contains "update_date" = true := by simp
      have hkeyall : ∀ dv : Nat,
          ∀ r ∈ u.rows.map (fun r => setCell r "update_date" (Val.date dv)),
            dateKey (u.cols ++ ["update_date"]) r = some dv := by
        intro dv r hr
        obtain ⟨r0, _, rfl⟩ := List.mem_map.mp hr
        unfold dateKey
        rw [getVd_setCell_eq (u.cols ++ ["update_date"]) r0 "update_date" (Val.date dv) .na
          hcontud]
      have hsorti : ∀ dv : Nat,
          sortRowsByDate (u.cols ++ ["update_date"])
            (u.rows.map (fun r => setCell r "update_date" (Val.date dv))) =
          u.rows.map (fun r => setCell r "update_date" (Val.date dv)) :=
        fun dv => sortRows_const (u.cols ++ ["update_date"]) dv _ (hkeyall dv)
      rw [hsorti d1, hsorti d2]
      have hrid : ∀ (dv : Nat) (r0 : RawRow),
          recordIdOf (u.cols ++ ["update_date"]) (setCell r0 "update_date" (Val.date dv)) =
          recordIdOf (u.cols ++ ["update_date"]) r0 := by
        intro dv r0
        unfold recordIdOf
        exact getVd_setCell_ne _ r0 "update_date" (Val.date dv) "record_id" .na (by decide)
      have hkeys :
          dedupKeys ((u.rows.map (fun r => setCell r "update_date" (Val.date d1))).map
            (recordIdOf (u.cols ++ ["update_date"]))) =
          dedupKeys ((u.rows.map (fun r => setCell r "update_date" (Val.date d2))).map
            (recordIdOf (u.cols ++ ["update_date"]))) := by
        rw [List.map_map, List.map_map]
        congr 1
        apply List.map_congr_left
        intro r0 _
        simp only [Function.comp]
        rw [hrid d1 r0, hrid d2 r0]
      rw [hkeys]
      have hfilter : ∀ (dv : Nat) (k : Val),
          (u.rows.map (fun r => setCell r "update_date" (Val.date dv))).filter
            (fun r => recordIdOf (u.cols ++ ["update_date"]) r == k) =
          (u.rows.filter (fun r => recordIdOf (u.cols ++ ["update_date"]) r == k)).map
            (fun r => setCell r "update_date" (Val.date dv)) := by
        intro dv k
        rw [List.filter_map]
        congr 1
        apply List.filter_congr
        intro r0 _
        simp only [Function.comp]
        rw [hrid dv r0]
      apply applyUpdates_fold_congr m (u.cols ++ ["update_date"]) _ _ t1 t2
      · intro k c d hc
        unfold Agg.get
        dsimp only
        by_cases hin : ((u.cols ++ ["update_date"]).contains c && (c != "record_id")) = true
        · rw [if_pos hin, if_pos hin]
          rw [hfilter d1 k, hfilter d2 k, List.map_map, List.map_map]
          congr 1
          apply List.map_congr_left
          intro r0 _
          simp only [Function.comp]
          rw [getVd_setCell_ne _ r0 "update_date" (Val.date d1) c .na hc,
              getVd_setCell_ne _ r0 "update_date" (Val.date d2) c .na hc]
        · rw [if_neg hin, if_neg hin]
      · intro k d
        right
        constructor <;>
        · unfold Agg.get
          dsimp only
          rw [if_pos (by simp)]
          rw [hfilter _ k, List.map_map]
          apply lastNonNa_all_date
          intro v hv
          obtain ⟨r0, _, rfl⟩ := List.mem_map.mp hv
          simp only [Function.comp]
          exact getVd_setCell_eq _ r0 "update_date" _ .na hcontud
